import Mathlib

/-!
Verification development for the IPCA `OCFFramework` device registry
(`resource/IPCA/src/ocfframework.cpp`).

The C++ registry keeps two `std::map`s protected by one recursive mutex:
`m_OCFDevices : deviceId -> shared_ptr<DeviceDetails>` and
`m_OCFDevicesIndexedByDeviceURI : hostUri -> shared_ptr<DeviceDetails>`.
Entries are shared pointers mutated in place under the lock; the model keeps
the entries in the primary association list keyed by the immutable `deviceId`
and lets the secondary index store the `deviceId` of the entry it points to.
This is faithful because an entry lives in the primary map from its creation
in `OnResourceFound` until its erasure in `WorkerThread`, the index is only
ever written together with the entry, and (proved below as index soundness)
an index value never outlives its entry.

`std::map` enumerates its entries in lexicographic key order; the model keeps
a duplicate-free association list and enumerates it in list order.  No claim
below depends on which fixed enumeration order the map provides, only on the
enumeration being a fixed order.

Maps are modelled by association lists: `mapInsert` replaces the (unique)
binding of a key or appends a fresh one, matching `operator[]=`; `mapErase`
removes the binding, matching `erase` (on the duplicate-free lists reachable
from the empty registry a filter is the same operation).
-/

/-- Status codes surfaced to the application (`IPCAStatus` in the public
header, an external interface; only the identity of the constants matters to
the framework code under study). -/
inductive IPCAStatus where
  | IPCA_OK
  | IPCA_FAIL
  | IPCA_OUT_OF_MEMORY
  | IPCA_INVALID_ARGUMENT
  | IPCA_DEVICE_NOT_DISCOVERED
  | IPCA_RESOURCE_NOT_FOUND
  | IPCA_INFORMATION_NOT_AVAILABLE
  | IPCA_ACCESS_DENIED
  | IPCA_RESOURCE_CREATED
  | IPCA_RESOURCE_DELETED
  | IPCA_SECURITY_UPDATE_REQUEST_FINISHED
  | IPCA_SECURITY_UPDATE_REQUEST_FAILED
  | IPCA_SECURITY_UPDATE_REQUEST_NOT_SUPPORTED
deriving DecidableEq, Repr

export IPCAStatus (IPCA_OK IPCA_FAIL IPCA_OUT_OF_MEMORY IPCA_INVALID_ARGUMENT
  IPCA_DEVICE_NOT_DISCOVERED IPCA_RESOURCE_NOT_FOUND IPCA_INFORMATION_NOT_AVAILABLE
  IPCA_ACCESS_DENIED IPCA_RESOURCE_CREATED IPCA_RESOURCE_DELETED
  IPCA_SECURITY_UPDATE_REQUEST_FINISHED IPCA_SECURITY_UPDATE_REQUEST_FAILED
  IPCA_SECURITY_UPDATE_REQUEST_NOT_SUPPORTED)

/-- Modelled from the spec: the numeric protocol result codes (`OCStackResult`
in the external `octypes.h`, which is not among the sources here).  The
success codes are the consecutive values 0..4 with `OC_STACK_RESOURCE_CHANGED`
the greatest success code, and `OC_STACK_UNAUTHORIZED_REQ` is an error code
strictly above it (value 46 in the header); the spec's dispatcher table and
the rule "any protocol code strictly greater than `ResourceChanged` maps to
`Fail`" fix this ordering. -/
def OC_STACK_OK : Nat := 0

/-- Protocol code 201-style success: a resource was created. -/
def OC_STACK_RESOURCE_CREATED : Nat := 1

/-- Protocol code 202-style success: a resource was deleted. -/
def OC_STACK_RESOURCE_DELETED : Nat := 2

/-- Protocol success code for a continuing transfer. -/
def OC_STACK_CONTINUE : Nat := 3

/-- Protocol code 204-style success: a resource changed; the greatest success
code. -/
def OC_STACK_RESOURCE_CHANGED : Nat := 4

/-- Protocol error code for an unauthorized request. -/
def OC_STACK_UNAUTHORIZED_REQ : Nat := 46

/-- Generic protocol error, used to initialize results before dispatch. -/
def OC_STACK_ERROR : Nat := 255

/-! Association-list maps standing for the two `std::map`s. -/

/-- Lookup of a key, first binding wins (on duplicate-free lists this is the
unique binding, matching `std::map::find`). -/
def mapLookup {α : Type} (m : List (String × α)) (k : String) : Option α :=
  match m with
  | [] => none
  | (k', v) :: rest => if k' = k then some v else mapLookup rest k

/-- Replace the binding of `k` (first occurrence) or append a fresh one,
matching `std::map::operator[] =`. -/
def mapInsert {α : Type} (m : List (String × α)) (k : String) (v : α) :
    List (String × α) :=
  match m with
  | [] => [(k, v)]
  | (k', v') :: rest =>
      if k' = k then (k, v) :: rest else (k', v') :: mapInsert rest k v

/-- Remove every binding of `k`; on the duplicate-free lists reachable from
the empty registry this is exactly `std::map::erase`. -/
def mapErase {α : Type} (m : List (String × α)) (k : String) :
    List (String × α) :=
  m.filter (fun p => p.1 ≠ k)

/-- The keys of a map are pairwise distinct. -/
def NodupKeys {α : Type} (m : List (String × α)) : Prop :=
  (m.map Prod.fst).Nodup

theorem mapLookup_insert {α : Type} (m : List (String × α)) (k k' : String) (v : α) :
    mapLookup (mapInsert m k v) k' = if k' = k then some v else mapLookup m k' := by
  induction m with
  | nil =>
      by_cases h : k' = k
      · subst h; simp [mapInsert, mapLookup]
      · have h2 : ¬ (k = k') := fun hh => h hh.symm
        simp [mapInsert, mapLookup, h, h2]
  | cons p rest ih =>
      obtain ⟨a, b⟩ := p
      by_cases hak : a = k
      · by_cases hk' : k' = k
        · simp [mapInsert, mapLookup, hak, hk']
        · have h2 : ¬ (a = k') := fun hh => hk' (hh.symm.trans hak)
          have h3 : ¬ (k = k') := fun hh => hk' hh.symm
          simp [mapInsert, mapLookup, hak, hk', h2, h3]
      · by_cases hk' : a = k'
        · have hkk : ¬ (k' = k) := fun hh => hak (hk'.trans hh)
          simp [mapInsert, mapLookup, hak, hk', hkk]
        · simp [mapInsert, mapLookup, hak, hk', ih]

theorem mapLookup_erase {α : Type} (m : List (String × α)) (k k' : String) :
    mapLookup (mapErase m k) k' = if k' = k then none else mapLookup m k' := by
  induction m with
  | nil => simp [mapErase, mapLookup]
  | cons p rest ih =>
      obtain ⟨a, b⟩ := p
      by_cases hak : a = k
      · have hdrop : mapErase ((a, b) :: rest) k = mapErase rest k := by
          simp [mapErase, hak]
        rw [hdrop, ih]
        by_cases hk' : k' = k
        · simp [hk']
        · have hk2 : ¬ (a = k') := fun hh => hk' (hh.symm.trans hak)
          simp [mapLookup, hk', hk2]
      · have hkeep : mapErase ((a, b) :: rest) k = (a, b) :: mapErase rest k := by
          simp [mapErase, hak]
        rw [hkeep]
        by_cases hk' : a = k'
        · have hne : ¬ (k' = k) := fun hh => hak (hk'.trans hh)
          simp [mapLookup, hk', hne]
        · simp [mapLookup, hk', ih]

theorem mapLookup_mem {α : Type} {m : List (String × α)} {k : String} {v : α}
    (h : mapLookup m k = some v) : (k, v) ∈ m := by
  induction m with
  | nil => simp [mapLookup] at h
  | cons p rest ih =>
      obtain ⟨a, b⟩ := p
      by_cases hak : a = k
      · subst hak
        simp [mapLookup] at h
        simp [h]
      · simp [mapLookup, hak] at h
        exact List.mem_cons_of_mem _ (ih h)

theorem mem_mapInsert_elim {α : Type} {m : List (String × α)} {k : String} {v : α}
    {p : String × α} (h : p ∈ mapInsert m k v) : p = (k, v) ∨ p ∈ m := by
  induction m with
  | nil => simp [mapInsert] at h; simp [h]
  | cons q rest ih =>
      obtain ⟨a, b⟩ := q
      by_cases hak : a = k
      · subst hak
        simp [mapInsert] at h
        rcases h with h | h
        · exact Or.inl h
        · exact Or.inr (List.mem_cons_of_mem _ h)
      · simp [mapInsert, hak] at h
        rcases h with h | h
        · exact Or.inr (by simp [h])
        · rcases ih h with h' | h'
          · exact Or.inl h'
          · exact Or.inr (List.mem_cons_of_mem _ h')

theorem mem_mapInsert_self {α : Type} (m : List (String × α)) (k : String) (v : α) :
    (k, v) ∈ mapInsert m k v := by
  induction m with
  | nil => simp [mapInsert]
  | cons q rest ih =>
      obtain ⟨a, b⟩ := q
      by_cases hak : a = k
      · subst hak; simp [mapInsert]
      · simp [mapInsert, hak]
        exact Or.inr ih

theorem mem_mapInsert_of_mem_ne {α : Type} {m : List (String × α)} {k : String} {v : α}
    {p : String × α} (hp : p ∈ m) (hne : p.1 ≠ k) : p ∈ mapInsert m k v := by
  induction m with
  | nil => simp at hp
  | cons q rest ih =>
      obtain ⟨a, b⟩ := q
      rcases List.mem_cons.mp hp with h | h
      · subst h
        by_cases hak : a = k
        · exact absurd hak hne
        · simp [mapInsert, hak]
      · by_cases hak : a = k
        · subst hak
          simp [mapInsert]
          right
          exact h
        · simp [mapInsert, hak]
          exact Or.inr (ih h)

theorem mem_mapInsert_or_first {α : Type} {m : List (String × α)} {k : String} {v : α}
    {p : String × α} (hp : p ∈ m) :
    p ∈ mapInsert m k v ∨ (p.1 = k ∧ mapLookup m k = some p.2) := by
  induction m with
  | nil => simp at hp
  | cons q rest ih =>
      obtain ⟨a, b⟩ := q
      by_cases hak : a = k
      · subst hak
        rcases List.mem_cons.mp hp with h | h
        · subst h
          exact Or.inr ⟨rfl, by simp [mapLookup]⟩
        · exact Or.inl (by simp [mapInsert]; right; exact h)
      · rcases List.mem_cons.mp hp with h | h
        · subst h
          exact Or.inl (by simp [mapInsert, hak])
        · rcases ih h with h' | h'
          · exact Or.inl (by simp [mapInsert, hak]; exact Or.inr h')
          · refine Or.inr ⟨h'.1, ?_⟩
            have : a ≠ k := hak
            simp [mapLookup, this, h'.2]

theorem mem_mapErase_elim {α : Type} {m : List (String × α)} {k : String}
    {p : String × α} (h : p ∈ mapErase m k) : p ∈ m ∧ p.1 ≠ k := by
  have := List.mem_filter.mp h
  refine ⟨this.1, ?_⟩
  have h2 := this.2
  simpa using h2

theorem mem_mapErase_of {α : Type} {m : List (String × α)} {k : String}
    {p : String × α} (hp : p ∈ m) (hne : p.1 ≠ k) : p ∈ mapErase m k :=
  List.mem_filter.mpr ⟨hp, by simpa using hne⟩

theorem nodupKeys_mapInsert {α : Type} {m : List (String × α)} (k : String) (v : α)
    (h : NodupKeys m) : NodupKeys (mapInsert m k v) := by
  induction m with
  | nil => simp [mapInsert, NodupKeys]
  | cons q rest ih =>
      obtain ⟨a, b⟩ := q
      have h' : a ∉ rest.map Prod.fst ∧ NodupKeys rest := by
        rw [NodupKeys, List.map_cons, List.nodup_cons] at h
        exact h
      by_cases hak : a = k
      · have heq : mapInsert ((a, b) :: rest) k v = (k, v) :: rest := by
          simp [mapInsert, hak]
        rw [heq, NodupKeys, List.map_cons, List.nodup_cons]
        refine ⟨?_, h'.2⟩
        show k ∉ rest.map Prod.fst
        rw [← hak]
        exact h'.1
      · have heq : mapInsert ((a, b) :: rest) k v = (a, b) :: mapInsert rest k v := by
          simp [mapInsert, hak]
        rw [heq, NodupKeys, List.map_cons, List.nodup_cons]
        refine ⟨?_, ih h'.2⟩
        intro hmem
        rcases List.mem_map.mp hmem with ⟨p, hp, hfst⟩
        rcases mem_mapInsert_elim hp with h2 | h2
        · rw [h2] at hfst
          exact hak hfst.symm
        · exact h'.1 (List.mem_map.mpr ⟨p, h2, hfst⟩)

theorem nodupKeys_mapErase {α : Type} {m : List (String × α)} (k : String)
    (h : NodupKeys m) : NodupKeys (mapErase m k) := by
  have hsub : ((mapErase m k).map Prod.fst).Sublist (m.map Prod.fst) :=
    (List.filter_sublist _).map Prod.fst
  exact List.Nodup.sublist hsub h

theorem mem_lookup_of_nodup {α : Type} {m : List (String × α)}
    (hnd : NodupKeys m) {p : String × α} (hp : p ∈ m) :
    mapLookup m p.1 = some p.2 := by
  induction m with
  | nil => simp at hp
  | cons q rest ih =>
      obtain ⟨a, b⟩ := q
      rw [NodupKeys, List.map_cons, List.nodup_cons] at hnd
      rcases List.mem_cons.mp hp with h | h
      · subst h; simp [mapLookup]
      · have hne : a ≠ p.1 := by
          intro hcontr
          exact hnd.1 (List.mem_map.mpr ⟨p, h, hcontr.symm⟩)
        simp [mapLookup, hne]
        exact ih hnd.2 h

theorem mem_mapInsert_iff_of_nodup {α : Type} {m : List (String × α)}
    (hnd : NodupKeys m) (k : String) (v : α) (p : String × α) :
    p ∈ mapInsert m k v ↔ p = (k, v) ∨ (p ∈ m ∧ p.1 ≠ k) := by
  constructor
  · intro h
    rcases mem_mapInsert_elim h with h' | h'
    · exact Or.inl h'
    · by_cases hk : p.1 = k
      · left
        have hlook := mem_lookup_of_nodup hnd h'
        have hlook2 : mapLookup (mapInsert m k v) p.1 = some p.2 := by
          have hnd' := nodupKeys_mapInsert (m := m) k v hnd
          exact mem_lookup_of_nodup hnd' h
        rw [hk] at hlook2
        rw [mapLookup_insert] at hlook2
        simp at hlook2
        obtain ⟨h1, h2⟩ := p
        simp at hk hlook2 ⊢
        exact ⟨hk, hlook2.symm⟩
      · exact Or.inr ⟨h', hk⟩
  · intro h
    rcases h with h | ⟨hm, hne⟩
    · subst h; exact mem_mapInsert_self m k v
    · exact mem_mapInsert_of_mem_ne hm hne

theorem mapLookup_foldl_erase {α : Type} (ks : List String)
    (m : List (String × α)) (k : String) :
    mapLookup (ks.foldl mapErase m) k =
      if k ∈ ks then none else mapLookup m k := by
  induction ks generalizing m with
  | nil => simp
  | cons k0 ks ih =>
      simp only [List.foldl_cons]
      rw [ih]
      by_cases hk : k ∈ ks
      · simp [hk]
      · by_cases hk0 : k = k0
        · subst hk0; simp [hk, mapLookup_erase]
        · simp [hk, hk0, mapLookup_erase]

/-! The data model: resources, device entries, and the framework state. -/

/-- Model of the protocol engine's `OC::OCResource` handle as seen by this
file: the discovery callback reads `sid()`, `uri()`, `host()`,
`getResourceTypes()`, `getResourceInterfaces()`, and the dispatcher reads
`isObservable()`. -/
structure OCResourceM where
  sid : String
  uri : String
  host : String
  resourceTypes : List String
  resourceInterfaces : List String
  observable : Bool
deriving DecidableEq, Repr

/-- The slice of `IPCADeviceInfoInternal` populated by
`OnDeviceInfoCallback` from the representation keys `n` and `icv`; the
`dmv`/`dataModelVersions`/`protocolIndependentId` strings and the URI list
copy are carried the same way and are elided as no claim reads them. -/
structure DeviceInfoM where
  deviceId : String
  deviceName : String
  deviceSoftwareVersion : String
deriving DecidableEq, Repr

/-- One registry entry (`DeviceDetails` in `ocfframework.cpp`).  The
`securityInfo` sub-struct is flattened to the `isStarted` flag consulted by
`RequestAccess`; the platform-info string fields, thread handles and
condition variables are elided as no claim reads them. -/
structure DeviceDetails where
  deviceId : String
  deviceUris : List String
  resourceMap : List (String × OCResourceM)
  discoveredResourceTypes : List String
  discoveredResourceInterfaces : List String
  deviceInfo : DeviceInfoM
  deviceInfoAvailable : Bool
  deviceInfoRequestCount : Nat
  platformInfoAvailable : Bool
  platformInfoRequestCount : Nat
  maintenanceResourceAvailable : Bool
  maintenanceResourceRequestCount : Nat
  deviceOpenCount : Int
  lastCloseDeviceTime : Nat
  lastResponseTimeToDiscovery : Nat
  deviceNotRespondingIndicated : Bool
  lastPingTime : Nat
  securityInfoIsStarted : Bool
deriving DecidableEq, Repr

/-- Context stored by `RequestAccess` in `m_OCFRequestAccessContexts`
(`RequestAccessContext`); the framework back-pointer and the two callback
pointers are elided. -/
structure RequestAccessContext where
  deviceId : String
deriving DecidableEq, Repr

/-- The `OCFFramework` state: the two registry maps, the registered
application callbacks (opaque handles), the request-access contexts and the
lifecycle flag consulted by `RequestAccess`. -/
structure OCFFramework where
  m_OCFDevices : List (String × DeviceDetails)
  m_OCFDevicesIndexedByDeviceURI : List (String × String)
  m_callbacks : List Nat
  m_OCFRequestAccessContexts : List (String × RequestAccessContext)
  m_isStopping : Bool
deriving DecidableEq, Repr

/-- The state right after the constructor: empty maps, not stopping. -/
def emptyOCFFramework : OCFFramework :=
  { m_OCFDevices := []
    m_OCFDevicesIndexedByDeviceURI := []
    m_callbacks := []
    m_OCFRequestAccessContexts := []
    m_isStopping := false }

/-- `FindDeviceDetails` (lines 1021-1034): looks the device up in
`m_OCFDevices` and returns `IPCA_FAIL` — not `IPCA_DEVICE_NOT_DISCOVERED` —
when it is absent. -/
def FindDeviceDetails (st : OCFFramework) (deviceId : String) :
    IPCAStatus × Option DeviceDetails :=
  match mapLookup st.m_OCFDevices deviceId with
  | none => (IPCA_FAIL, none)
  | some d => (IPCA_OK, some d)

/-- Modelled from the spec: the utility `AddNewStringsToTargetList` (defined
outside these sources) appends to the target the strings not already present
and reports whether anything was added ("union sets accumulated across all
this device's resources"). -/
def AddNewStringsToTargetList (newList : List String) (target : List String) :
    List String × Bool :=
  newList.foldl
    (fun acc s => if acc.1.contains s then acc else (acc.1 ++ [s], true))
    (target, false)

/-- Which of the three metadata fetches one `GetCommonResources` call
issued. -/
structure FetchSet where
  platformFetch : Bool
  deviceFetch : Bool
  maintenanceFetch : Bool
deriving DecidableEq, Repr

/-- Retry cap (`MAX_REQUEST_COUNT` in `GetCommonResources`). -/
def MAX_REQUEST_COUNT : Nat := 3

/-- `GetCommonResources` (lines 672-754): for each of platform info, device
info and the maintenance resource, issue the protocol fetch exactly when the
availability flag is still false and the per-kind request count is below the
cap, and increment the count after the call without looking at the call's
result.  The fetch target (the matching resource's host if `/oic/p` or
`/oic/d` was listed, else `deviceUris[0]`) and the protocol call's own
return value do not touch the registry state and are not recorded. -/
def GetCommonResources (d : DeviceDetails) : DeviceDetails × FetchSet :=
  let d1 :=
    if d.platformInfoAvailable = false ∧
        d.platformInfoRequestCount < MAX_REQUEST_COUNT then
      { d with platformInfoRequestCount := d.platformInfoRequestCount + 1 }
    else d
  let pf := decide (d.platformInfoAvailable = false ∧
      d.platformInfoRequestCount < MAX_REQUEST_COUNT)
  let d2 :=
    if d1.deviceInfoAvailable = false ∧
        d1.deviceInfoRequestCount < MAX_REQUEST_COUNT then
      { d1 with deviceInfoRequestCount := d1.deviceInfoRequestCount + 1 }
    else d1
  let df := decide (d1.deviceInfoAvailable = false ∧
      d1.deviceInfoRequestCount < MAX_REQUEST_COUNT)
  let d3 :=
    if d2.maintenanceResourceAvailable = false ∧
        d2.maintenanceResourceRequestCount < MAX_REQUEST_COUNT then
      { d2 with maintenanceResourceRequestCount :=
          d2.maintenanceResourceRequestCount + 1 }
    else d2
  let mf := decide (d2.maintenanceResourceAvailable = false ∧
      d2.maintenanceResourceRequestCount < MAX_REQUEST_COUNT)
  (d3, { platformFetch := pf, deviceFetch := df, maintenanceFetch := mf })

/-- The fields of a fresh `DeviceDetails` as set by `OnResourceFound` for a
newly found device id (lines 375-399): counters zero, flags false, the close
timestamp initialized to the current time ("device is not opened at this
time"). -/
def freshDeviceDetails (sid : String) (now : Nat) : DeviceDetails :=
  { deviceId := sid
    deviceUris := []
    resourceMap := []
    discoveredResourceTypes := []
    discoveredResourceInterfaces := []
    deviceInfo := { deviceId := sid, deviceName := "", deviceSoftwareVersion := "" }
    deviceInfoAvailable := false
    deviceInfoRequestCount := 0
    platformInfoAvailable := false
    platformInfoRequestCount := 0
    maintenanceResourceAvailable := false
    maintenanceResourceRequestCount := 0
    deviceOpenCount := 0
    lastCloseDeviceTime := now
    lastResponseTimeToDiscovery := 0
    deviceNotRespondingIndicated := false
    lastPingTime := 0
    securityInfoIsStarted := false }

/-- `OnResourceFound` (lines 355-478): create the entry if the `sid` is new,
refresh the liveness fields, store the resource under its path, append the
host to `deviceUris` and point the secondary index at this entry when the
host is new to this entry, and fold the resource's types/interfaces into the
device unions.  For a new device the code then (outside the lock, on the
same shared entry) calls `DiscoverAllResourcesGivenHost` (no registry
effect) and `GetCommonResources`; the closing `DeviceDiscoveryCallback`
loop does not touch the registry. -/
def foundBase (st : OCFFramework) (now : Nat) (res : OCResourceM) :
    DeviceDetails :=
  match mapLookup st.m_OCFDevices res.sid with
  | some d => d
  | none => freshDeviceDetails res.sid now

/-- The in-lock mutation of the entry in `OnResourceFound` (lines 408-445):
refresh the liveness fields, store the resource under its path, append the
host if this entry did not list it yet (`std::find` over `deviceUris`), and
fold the resource's types and interfaces into the device unions. -/
def foundPopulate (d0 : DeviceDetails) (now : Nat) (res : OCResourceM) :
    DeviceDetails :=
  let d1 := { d0 with
    deviceNotRespondingIndicated := false
    lastResponseTimeToDiscovery := now
    resourceMap := mapInsert d0.resourceMap res.uri res }
  let d2 :=
    if res.host ∈ d1.deviceUris then d1
    else { d1 with deviceUris := d1.deviceUris ++ [res.host] }
  { d2 with
    discoveredResourceTypes :=
      (AddNewStringsToTargetList res.resourceTypes d2.discoveredResourceTypes).1
    discoveredResourceInterfaces :=
      (AddNewStringsToTargetList res.resourceInterfaces
        d2.discoveredResourceInterfaces).1 }

def onResourceFound (st : OCFFramework) (now : Nat) (res : OCResourceM) :
    OCFFramework :=
  let isNew := (mapLookup st.m_OCFDevices res.sid).isNone
  let d0 := foundBase st now res
  let d3 := foundPopulate d0 now res
  let d4 := if isNew then (GetCommonResources d3).1 else d3
  { st with
    m_OCFDevices := mapInsert st.m_OCFDevices res.sid d4
    m_OCFDevicesIndexedByDeviceURI :=
      if res.host ∈ d0.deviceUris then st.m_OCFDevicesIndexedByDeviceURI
      else mapInsert st.m_OCFDevicesIndexedByDeviceURI res.host res.sid }

/-- `OnDeviceInfoCallback` (lines 530-616): locate the entry through the
secondary index by the representation's host; drop the response when the
host is unknown or device info was already processed; otherwise populate the
device-info fields, append the host to `deviceUris` (and index it) if it is
new to the entry, and flip `deviceInfoAvailable`.  The C++ dereferences the
index's shared pointer directly; the model resolves the stored `deviceId`
in the primary map, which by the index-soundness invariant proved below is
the same entry on every state reachable from the empty registry (the
`nullptr` guard of the source corresponds to the impossible `none` case).
`devInfoUpdated` is the in-lock mutation of the located entry. -/
def devInfoUpdated (d : DeviceDetails) (host name icv : String) : DeviceDetails :=
  let d1 := { d with
    deviceInfo := { d.deviceInfo with
      deviceName := name, deviceSoftwareVersion := icv } }
  let d2 :=
    if host ∈ d1.deviceUris then d1
    else { d1 with deviceUris := d1.deviceUris ++ [host] }
  { d2 with deviceInfoAvailable := true }

/-- Dispatch of `OnDeviceInfoCallback` around `devInfoUpdated`; see the
comment there. -/
def onDeviceInfoCallback (st : OCFFramework) (host name icv : String) :
    OCFFramework :=
  match mapLookup st.m_OCFDevicesIndexedByDeviceURI host with
  | none => st
  | some id =>
    match mapLookup st.m_OCFDevices id with
    | none => st
    | some d =>
      if d.deviceInfoAvailable then st
      else
        { st with
          m_OCFDevices :=
            mapInsert st.m_OCFDevices id (devInfoUpdated d host name icv)
          m_OCFDevicesIndexedByDeviceURI :=
            if host ∈ d.deviceUris then st.m_OCFDevicesIndexedByDeviceURI
            else mapInsert st.m_OCFDevicesIndexedByDeviceURI host id }

/-- `OnPlatformInfoCallback` (lines 618-670): locate the entry through the
secondary index; drop when unknown or already available; otherwise populate
the platform-info strings (elided) and flip `platformInfoAvailable`.  Unlike
the device-info handler it does not touch `deviceUris` or the index. -/
def onPlatformInfoCallback (st : OCFFramework) (host : String) : OCFFramework :=
  match mapLookup st.m_OCFDevicesIndexedByDeviceURI host with
  | none => st
  | some id =>
    match mapLookup st.m_OCFDevices id with
    | none => st
    | some d =>
      if d.platformInfoAvailable then st
      else
        { st with
          m_OCFDevices :=
            mapInsert st.m_OCFDevices id { d with platformInfoAvailable := true } }

/-- `IPCADeviceOpenCalled` (lines 299-311): unknown device fails with
`IPCA_DEVICE_NOT_DISCOVERED`; otherwise the open count is incremented. -/
def IPCADeviceOpenCalled (st : OCFFramework) (deviceId : String) :
    IPCAStatus × OCFFramework :=
  match mapLookup st.m_OCFDevices deviceId with
  | none => (IPCA_DEVICE_NOT_DISCOVERED, st)
  | some d =>
      (IPCA_OK,
        { st with
          m_OCFDevices := mapInsert st.m_OCFDevices deviceId
            { d with deviceOpenCount := d.deviceOpenCount + 1 } })

/-- `IPCADeviceCloseCalled` (lines 313-333): unknown device fails with
`IPCA_DEVICE_NOT_DISCOVERED`; otherwise the open count is decremented with
no guard, `lastCloseDeviceTime` is refreshed exactly when the decrement
reaches zero, and the source then asserts `deviceOpenCount >= 0`. -/
def IPCADeviceCloseCalled (st : OCFFramework) (now : Nat) (deviceId : String) :
    IPCAStatus × OCFFramework :=
  match mapLookup st.m_OCFDevices deviceId with
  | none => (IPCA_DEVICE_NOT_DISCOVERED, st)
  | some d =>
      let newCount := d.deviceOpenCount - 1
      (IPCA_OK,
        { st with
          m_OCFDevices := mapInsert st.m_OCFDevices deviceId
            { d with
              deviceOpenCount := newCount
              lastCloseDeviceTime :=
                if newCount = 0 then now else d.lastCloseDeviceTime } })

/-! The maintenance loop (one iteration of `WorkerThread`, lines 202-296). -/

/-- Eviction test of the tick (lines 227-228): the app holds no open handle
and more than `AllowedTimeSincLastCloseMs = 300000` ms elapsed since
`lastCloseDeviceTime`.  `OICGetCurrentTime` is monotone, so the `uint64`
difference of the source equals truncated subtraction on `Nat`. -/
def idleDevice (now : Nat) (d : DeviceDetails) : Bool :=
  decide (d.deviceOpenCount = 0) && decide (300000 < now - d.lastCloseDeviceTime)

/-- Not-responding test of the tick (lines 235-236): the indication was not
yet raised and more than `AllowedTimeSinceLastDiscoveryResponseMs = 60000` ms
elapsed since the last discovery response. -/
def notRespondingTrigger (now : Nat) (d : DeviceDetails) : Bool :=
  !d.deviceNotRespondingIndicated &&
    decide (60000 < now - d.lastResponseTimeToDiscovery)

/-- Missing-metadata test of the tick (lines 243-245). -/
def missingMetadata (d : DeviceDetails) : Bool :=
  !d.deviceInfoAvailable || !d.platformInfoAvailable ||
    !d.maintenanceResourceAvailable

/-- Per-entry effect of the scan loop: an entry headed for eviction is left
untouched (`continue`), otherwise its not-responding flag is raised when the
trigger fires. -/
def tickUpdateEntry (now : Nat) (d : DeviceDetails) : DeviceDetails :=
  if idleDevice now d then d
  else if notRespondingTrigger now d then
    { d with deviceNotRespondingIndicated := true }
  else d

/-- `devicesThatAreNotOpened` of the tick.  The C++ loop classifies each
entry independently (the only mutation during the walk is each entry's own
not-responding flag, which no other entry's classification reads), so the
loop is the same as one filter per list. -/
def tickIdleList (st : OCFFramework) (now : Nat) :
    List (String × DeviceDetails) :=
  st.m_OCFDevices.filter (fun p => idleDevice now p.2)

/-- `devicesThatAreNotResponding` of the tick (entries before the flag
flip); an entry headed for eviction is skipped by the `continue`. -/
def tickNotRespondingList (st : OCFFramework) (now : Nat) :
    List (String × DeviceDetails) :=
  st.m_OCFDevices.filter
    (fun p => !idleDevice now p.2 && notRespondingTrigger now p.2)

/-- `devicesToGetCommonResources` of the tick; an entry headed for eviction
is skipped by the `continue`. -/
def tickGetCommonList (st : OCFFramework) (now : Nat) :
    List (String × DeviceDetails) :=
  st.m_OCFDevices.filter
    (fun p => !idleDevice now p.2 && missingMetadata p.2)

/-- Eviction of one collected entry (lines 252-262): first erase each of the
entry's URIs from the secondary index, then erase the entry itself.  The
source reads the URI list through `m_OCFDevices[device->deviceId]`, which is
the same shared entry that was collected. -/
def evictOne (st : OCFFramework) (d : DeviceDetails) : OCFFramework :=
  { st with
    m_OCFDevicesIndexedByDeviceURI :=
      d.deviceUris.foldl mapErase st.m_OCFDevicesIndexedByDeviceURI
    m_OCFDevices := mapErase st.m_OCFDevices d.deviceId }

/-- The out-of-lock `GetCommonResources(device)` call of the tick, applied
through the entry's id (the C++ mutates the shared entry in place; a
collected entry is never one of the evicted ones, so it is still in the
map). -/
def applyGetCommonById (st : OCFFramework) (id : String) : OCFFramework :=
  match mapLookup st.m_OCFDevices id with
  | none => st
  | some d =>
      { st with
        m_OCFDevices := mapInsert st.m_OCFDevices id (GetCommonResources d).1 }

/-- One iteration of `WorkerThread` as it affects the registry: classify,
flip the not-responding flags, erase the idle entries and their URIs, then
run `GetCommonResources` for the entries with missing metadata.  The final
not-responding `DeviceDiscoveryCallback` loop does not touch the registry. -/
def WorkerTick (st : OCFFramework) (now : Nat) : OCFFramework :=
  let notOpened := (tickIdleList st now).map Prod.snd
  let getCommonIds := (tickGetCommonList st now).map Prod.fst
  let stScanned := { st with
    m_OCFDevices := st.m_OCFDevices.map (fun p => (p.1, tickUpdateEntry now p.2)) }
  let stEvicted := notOpened.foldl evictOne stScanned
  getCommonIds.foldl applyGetCommonById stEvicted

/-! The operation dispatcher. -/

/-- The operation kinds bound into a `CallbackInfo` that reach
`SendCommandToDevice`. -/
inductive CallbackType where
  | GetPropertiesComplete
  | SetPropertiesComplete
  | CreateResourceComplete
  | DeleteResourceComplete
  | ResourceChange
deriving DecidableEq, Repr

/-- The slice of `CallbackInfo` read by `SendCommandToDevice`. -/
structure CallbackInfo where
  type : CallbackType
  resourcePath : String
  resourceType : String
  resourceInterface : String
deriving DecidableEq, Repr

/-- `FindOCResource` (lines 1036-1060): exact match on the resource path
wins; otherwise the first resource in map enumeration order one of whose
resource types equals the target type; otherwise null. -/
def findFirstByType (targetRT : String) :
    List (String × OCResourceM) → Option OCResourceM
  | [] => none
  | (_, r) :: rest =>
      if targetRT ∈ r.resourceTypes then some r
      else findFirstByType targetRT rest

/-- `FindOCResource` proper. -/
def FindOCResource (d : DeviceDetails) (targetResourcePath targetRT : String) :
    Option OCResourceM :=
  match mapLookup d.resourceMap targetResourcePath with
  | some r => some r
  | none => findFirstByType targetRT d.resourceMap

/-- `SendCommandToDevice` (lines 860-948): resolve the device (propagating
`FindDeviceDetails`'s `IPCA_FAIL` unchanged when it is unknown), resolve a
resource handle or fail with `IPCA_RESOURCE_NOT_FOUND`, then dispatch the
protocol operation selected by the callback type.  Every dispatch arm hands
the bound resource to the protocol engine and yields its `OCStackResult`;
that result is an external input here (`opResult`).  The returned option is
the resource the request was dispatched on — `none` means the call returned
before any protocol request was issued, so no terminal listener callback can
ever fire for it. -/
def SendCommandToDevice (st : OCFFramework) (deviceId : String)
    (callbackInfo : CallbackInfo) (opResult : Nat) :
    IPCAStatus × Option OCResourceM :=
  match mapLookup st.m_OCFDevices deviceId with
  | none => (IPCA_FAIL, none)
  | some d =>
    match FindOCResource d callbackInfo.resourcePath callbackInfo.resourceType with
    | none => (IPCA_RESOURCE_NOT_FOUND, none)
    | some r =>
        if opResult = OC_STACK_OK then (IPCA_OK, some r)
        else (IPCA_FAIL, some r)

/-- `IsResourceObservable` (lines 956-976): the out-parameter is set to
`false` first and the function returns (with no status) when the device or
the path is unknown; only when both lookups succeed is the resource
handle's observability written.  The returned `Bool` is the final value of
the out-parameter. -/
def IsResourceObservable (st : OCFFramework) (deviceId resourcePath : String) :
    Bool :=
  match mapLookup st.m_OCFDevices deviceId with
  | none => false
  | some d =>
    match mapLookup d.resourceMap resourcePath with
    | none => false
    | some r => r.observable

/-! The protocol-result mapping and the terminal callback handlers. -/

/-- `MapOCStackResultToIPCAStatus` (lines 756-786), the switch translated
case for case. -/
def MapOCStackResultToIPCAStatus (result : Nat) : IPCAStatus :=
  if result = OC_STACK_OK ∨ result = OC_STACK_CONTINUE ∨
      result = OC_STACK_RESOURCE_CHANGED then IPCA_OK
  else if result = OC_STACK_UNAUTHORIZED_REQ then IPCA_ACCESS_DENIED
  else if result = OC_STACK_RESOURCE_CREATED then IPCA_RESOURCE_CREATED
  else if result = OC_STACK_RESOURCE_DELETED then IPCA_RESOURCE_DELETED
  else IPCA_FAIL

/-- `OnPostPut` (lines 789-802), the terminal handler for set and create:
each registered callback receives `SetCallback` with the mapped status.  The
result lists the `(listener, status)` deliveries. -/
def OnPostPut (st : OCFFramework) (eCode : Nat) : List (Nat × IPCAStatus) :=
  st.m_callbacks.map (fun cb => (cb, MapOCStackResultToIPCAStatus eCode))

/-- `OnDelete` (lines 846-858), the terminal handler for delete: each
registered callback receives `DeleteResourceCallback` with the mapped
status. -/
def OnDelete (st : OCFFramework) (eCode : Nat) : List (Nat × IPCAStatus) :=
  st.m_callbacks.map (fun cb => (cb, MapOCStackResultToIPCAStatus eCode))

/-- The status computed by `OnGet` (lines 805-823): `IPCA_OK` unless the
protocol code is strictly greater than `OC_STACK_RESOURCE_CHANGED`. -/
def OnGetStatus (eCode : Nat) : IPCAStatus :=
  if OC_STACK_RESOURCE_CHANGED < eCode then IPCA_FAIL else IPCA_OK

/-- `OnGet` deliveries. -/
def OnGet (st : OCFFramework) (eCode : Nat) : List (Nat × IPCAStatus) :=
  st.m_callbacks.map (fun cb => (cb, OnGetStatus eCode))

/-- The status computed by `OnObserve` (lines 825-844), same rule as
`OnGet`. -/
def OnObserveStatus (eCode : Nat) : IPCAStatus :=
  if OC_STACK_RESOURCE_CHANGED < eCode then IPCA_FAIL else IPCA_OK

/-- `OnObserve` deliveries. -/
def OnObserve (st : OCFFramework) (eCode : Nat) : List (Nat × IPCAStatus) :=
  st.m_callbacks.map (fun cb => (cb, OnObserveStatus eCode))

/-- `RequestAccess` (lines 1384-1442): fail while stopping; propagate
`FindDeviceDetails`'s failure for an unknown device; fail when a request is
already started for the device, otherwise mark it started, store a context
and spawn `RequestAccessWorkerThread`.  The third component records whether
the worker thread was spawned.  (The `OICCalloc` out-of-memory early return
is not modelled; allocation is assumed to succeed.) -/
def RequestAccess (st : OCFFramework) (deviceId : String) :
    IPCAStatus × OCFFramework × Bool :=
  if st.m_isStopping then (IPCA_FAIL, st, false)
  else
    match mapLookup st.m_OCFDevices deviceId with
    | none => (IPCA_FAIL, st, false)
    | some d =>
        if d.securityInfoIsStarted = false then
          let d' := { d with securityInfoIsStarted := true }
          (IPCA_OK,
            { st with
              m_OCFDevices := mapInsert st.m_OCFDevices deviceId d'
              m_OCFRequestAccessContexts :=
                mapInsert st.m_OCFRequestAccessContexts deviceId
                  { deviceId := deviceId } },
            true)
        else (IPCA_FAIL, st, false)

/-! Event traces over the registry. -/

/-- The registry-mutating events a run of the framework interleaves:
discovery responses, device/platform-info responses, maintenance ticks, and
app open/close calls.  Timestamps are the values `OICGetCurrentTime` returns
inside the respective handler. -/
inductive Event where
  | found (now : Nat) (res : OCResourceM)
  | devInfo (host name icv : String)
  | platInfo (host : String)
  | tick (now : Nat)
  | openDev (id : String)
  | closeDev (now : Nat) (id : String)
deriving DecidableEq, Repr

/-- One event applied to the registry state. -/
def step (st : OCFFramework) (e : Event) : OCFFramework :=
  match e with
  | .found now res => onResourceFound st now res
  | .devInfo host name icv => onDeviceInfoCallback st host name icv
  | .platInfo host => onPlatformInfoCallback st host
  | .tick now => WorkerTick st now
  | .openDev id => (IPCADeviceOpenCalled st id).2
  | .closeDev now id => (IPCADeviceCloseCalled st now id).2

/-- A whole trace applied to a state. -/
def runTrace (st : OCFFramework) (tr : List Event) : OCFFramework :=
  tr.foldl step st

/-! Registry invariants (claim C1) and supporting lemmas. -/

/-- Every entry is stored under its own (immutable) device id. -/
def KeysMatch (st : OCFFramework) : Prop :=
  ∀ p ∈ st.m_OCFDevices, p.2.deviceId = p.1

/-- Well-formedness: distinct primary keys and key consistency. -/
def RegistryWF (st : OCFFramework) : Prop :=
  NodupKeys st.m_OCFDevices ∧ KeysMatch st

/-- Direction 1 of the secondary-index invariant: every URI recorded in a
device entry's `deviceUris` is a secondary-index key mapping to that same
entry. -/
def UrisIndexed (st : OCFFramework) : Prop :=
  ∀ p ∈ st.m_OCFDevices, ∀ u ∈ p.2.deviceUris,
    mapLookup st.m_OCFDevicesIndexedByDeviceURI u = some p.1

/-- Direction 2 of the secondary-index invariant: every secondary-index key
maps to an entry of the primary map whose `deviceUris` contains it. -/
def IndexSound (st : OCFFramework) : Prop :=
  ∀ q ∈ st.m_OCFDevicesIndexedByDeviceURI,
    ∃ p ∈ st.m_OCFDevices, p.1 = q.2 ∧ q.1 ∈ p.2.deviceUris

instance decUrisIndexed (st : OCFFramework) : Decidable (UrisIndexed st) :=
  inferInstanceAs (Decidable (∀ p ∈ st.m_OCFDevices, ∀ u ∈ p.2.deviceUris,
    mapLookup st.m_OCFDevicesIndexedByDeviceURI u = some p.1))

instance decIndexSound (st : OCFFramework) : Decidable (IndexSound st) :=
  inferInstanceAs (Decidable (∀ q ∈ st.m_OCFDevicesIndexedByDeviceURI,
    ∃ p ∈ st.m_OCFDevices, p.1 = q.2 ∧ q.1 ∈ p.2.deviceUris))

theorem nodup_mem_eq {α : Type} {m : List (String × α)} (hnd : NodupKeys m)
    {p p' : String × α} (hp : p ∈ m) (hp' : p' ∈ m) (hk : p.1 = p'.1) :
    p = p' := by
  have h1 := mem_lookup_of_nodup hnd hp
  have h2 := mem_lookup_of_nodup hnd hp'
  rw [hk] at h1
  rw [h1] at h2
  have : p.2 = p'.2 := by injection h2
  obtain ⟨a, b⟩ := p
  obtain ⟨a', b'⟩ := p'
  simp only [Prod.mk.injEq]
  simp at hk this
  exact ⟨hk, this⟩

theorem mem_foldl_erase_elim {α : Type} {ks : List String}
    {m : List (String × α)} {q : String × α}
    (h : q ∈ ks.foldl mapErase m) : q ∈ m ∧ q.1 ∉ ks := by
  induction ks generalizing m with
  | nil => simpa using h
  | cons k0 ks ih =>
      simp only [List.foldl_cons] at h
      obtain ⟨h1, h2⟩ := ih h
      obtain ⟨h3, h4⟩ := mem_mapErase_elim h1
      refine ⟨h3, ?_⟩
      intro hmem
      rcases List.mem_cons.mp hmem with h' | h'
      · exact h4 h'
      · exact h2 h'

theorem mem_foldl_erase_of {α : Type} {ks : List String}
    {m : List (String × α)} {q : String × α}
    (hq : q ∈ m) (hk : q.1 ∉ ks) : q ∈ ks.foldl mapErase m := by
  induction ks generalizing m with
  | nil => simpa using hq
  | cons k0 ks ih =>
      simp only [List.foldl_cons]
      have hne : q.1 ≠ k0 := fun hh => hk (by simp [hh])
      exact ih (mem_mapErase_of hq hne) (fun hh => hk (List.mem_cons_of_mem _ hh))

theorem foldl_preserves {σ α : Type} (f : σ → α → σ) (P : σ → Prop)
    (h : ∀ s a, P s → P (f s a)) :
    ∀ (l : List α) (s : σ), P s → P (l.foldl f s) := by
  intro l
  induction l with
  | nil => intro s hs; simpa using hs
  | cons a l ih =>
      intro s hs
      simp only [List.foldl_cons]
      exact ih _ (h s a hs)

theorem mapLookup_mapEntries (f : DeviceDetails → DeviceDetails)
    (m : List (String × DeviceDetails)) (k : String) :
    mapLookup (m.map (fun p => (p.1, f p.2))) k = (mapLookup m k).map f := by
  induction m with
  | nil => simp [mapLookup]
  | cons p rest ih =>
      obtain ⟨a, b⟩ := p
      by_cases hak : a = k
      · simp [mapLookup, hak]
      · simp [mapLookup, hak, ih]

theorem tickUpdateEntry_deviceId (now : Nat) (d : DeviceDetails) :
    (tickUpdateEntry now d).deviceId = d.deviceId := by
  unfold tickUpdateEntry
  split_ifs <;> rfl

theorem tickUpdateEntry_deviceUris (now : Nat) (d : DeviceDetails) :
    (tickUpdateEntry now d).deviceUris = d.deviceUris := by
  unfold tickUpdateEntry
  split_ifs <;> rfl

theorem getCommon_deviceId (d : DeviceDetails) :
    (GetCommonResources d).1.deviceId = d.deviceId := by
  simp only [GetCommonResources]
  split_ifs <;> rfl

theorem getCommon_deviceUris (d : DeviceDetails) :
    (GetCommonResources d).1.deviceUris = d.deviceUris := by
  simp only [GetCommonResources]
  split_ifs <;> rfl

/-- Updating an entry in place without touching its id or URI list (and
leaving the index alone) preserves well-formedness and both directions of
the index invariant. -/
theorem inv_update_entry {st : OCFFramework} {id : String} {d : DeviceDetails}
    (d' : DeviceDetails)
    (hwf : RegistryWF st) (hl : mapLookup st.m_OCFDevices id = some d)
    (hid : d'.deviceId = d.deviceId) (huris : d'.deviceUris = d.deviceUris) :
    RegistryWF { st with m_OCFDevices := mapInsert st.m_OCFDevices id d' } ∧
    (IndexSound st →
      IndexSound { st with m_OCFDevices := mapInsert st.m_OCFDevices id d' }) ∧
    (UrisIndexed st →
      UrisIndexed { st with m_OCFDevices := mapInsert st.m_OCFDevices id d' }) := by
  have hmem : (id, d) ∈ st.m_OCFDevices := mapLookup_mem hl
  have hdid : d.deviceId = id := hwf.2 _ hmem
  refine ⟨⟨nodupKeys_mapInsert _ _ hwf.1, ?_⟩, ?_, ?_⟩
  · intro p hp
    rcases mem_mapInsert_elim hp with h | h
    · rw [h]
      simpa [hid] using hdid
    · exact hwf.2 _ h
  · intro hs q hq
    obtain ⟨p, hpmem, hpk, hpu⟩ := hs q hq
    rcases mem_mapInsert_or_first (k := id) (v := d') hpmem with h | h
    · exact ⟨p, h, hpk, hpu⟩
    · refine ⟨(id, d'), mem_mapInsert_self _ _ _, ?_, ?_⟩
      · rw [← hpk, h.1]
      · have : p.2 = d := by
          rw [hl] at h
          injection h.2 with h2
          exact h2.symm
        rw [huris, ← this]
        exact hpu
  · intro hu p hp u hu'
    rcases mem_mapInsert_elim hp with h | h
    · have : p.2.deviceUris = d.deviceUris := by rw [h]; exact huris
      rw [this] at hu'
      have := hu (id, d) hmem u hu'
      rw [h]
      exact this
    · exact hu p h u hu'

theorem applyGetCommon_preserves (st : OCFFramework) (id : String)
    (hwf : RegistryWF st) (hsd : IndexSound st) :
    (RegistryWF (applyGetCommonById st id) ∧
      IndexSound (applyGetCommonById st id)) ∧
    (UrisIndexed st → UrisIndexed (applyGetCommonById st id)) := by
  unfold applyGetCommonById
  split
  · exact ⟨⟨hwf, hsd⟩, fun hu => hu⟩
  · rename_i d hl
    obtain ⟨h1, h2, h3⟩ :=
      inv_update_entry (GetCommonResources d).1 hwf hl
        (getCommon_deviceId d) (getCommon_deviceUris d)
    exact ⟨⟨h1, h2 hsd⟩, h3⟩

theorem platInfo_preserves (st : OCFFramework) (host : String)
    (hwf : RegistryWF st) (hsd : IndexSound st) :
    (RegistryWF (onPlatformInfoCallback st host) ∧
      IndexSound (onPlatformInfoCallback st host)) ∧
    (UrisIndexed st → UrisIndexed (onPlatformInfoCallback st host)) := by
  unfold onPlatformInfoCallback
  split
  · exact ⟨⟨hwf, hsd⟩, fun hu => hu⟩
  · split
    · exact ⟨⟨hwf, hsd⟩, fun hu => hu⟩
    · rename_i d hl
      split
      · exact ⟨⟨hwf, hsd⟩, fun hu => hu⟩
      · obtain ⟨h1, h2, h3⟩ := inv_update_entry
          { d with platformInfoAvailable := true } hwf hl rfl rfl
        exact ⟨⟨h1, h2 hsd⟩, h3⟩

theorem openDev_preserves (st : OCFFramework) (id : String)
    (hwf : RegistryWF st) (hsd : IndexSound st) :
    (RegistryWF (IPCADeviceOpenCalled st id).2 ∧
      IndexSound (IPCADeviceOpenCalled st id).2) ∧
    (UrisIndexed st → UrisIndexed (IPCADeviceOpenCalled st id).2) := by
  unfold IPCADeviceOpenCalled
  split
  · exact ⟨⟨hwf, hsd⟩, fun hu => hu⟩
  · rename_i d hl
    obtain ⟨h1, h2, h3⟩ := inv_update_entry
      { d with deviceOpenCount := d.deviceOpenCount + 1 } hwf hl rfl rfl
    exact ⟨⟨h1, h2 hsd⟩, h3⟩

theorem closeDev_preserves (st : OCFFramework) (now : Nat) (id : String)
    (hwf : RegistryWF st) (hsd : IndexSound st) :
    (RegistryWF (IPCADeviceCloseCalled st now id).2 ∧
      IndexSound (IPCADeviceCloseCalled st now id).2) ∧
    (UrisIndexed st → UrisIndexed (IPCADeviceCloseCalled st now id).2) := by
  unfold IPCADeviceCloseCalled
  split
  · exact ⟨⟨hwf, hsd⟩, fun hu => hu⟩
  · rename_i d hl
    obtain ⟨h1, h2, h3⟩ := inv_update_entry
      { d with
        deviceOpenCount := d.deviceOpenCount - 1
        lastCloseDeviceTime :=
          if d.deviceOpenCount - 1 = 0 then now else d.lastCloseDeviceTime }
      hwf hl rfl rfl
    exact ⟨⟨h1, h2 hsd⟩, h3⟩

/-- The entry written back by `onResourceFound` for `res.sid`. -/
def foundFinal (st : OCFFramework) (now : Nat) (res : OCResourceM) :
    DeviceDetails :=
  if (mapLookup st.m_OCFDevices res.sid).isNone then
    (GetCommonResources (foundPopulate (foundBase st now res) now res)).1
  else foundPopulate (foundBase st now res) now res

theorem onResourceFound_devices (st : OCFFramework) (now : Nat) (res : OCResourceM) :
    (onResourceFound st now res).m_OCFDevices =
      mapInsert st.m_OCFDevices res.sid (foundFinal st now res) := rfl

theorem onResourceFound_idx (st : OCFFramework) (now : Nat) (res : OCResourceM) :
    (onResourceFound st now res).m_OCFDevicesIndexedByDeviceURI =
      if res.host ∈ (foundBase st now res).deviceUris then
        st.m_OCFDevicesIndexedByDeviceURI
      else mapInsert st.m_OCFDevicesIndexedByDeviceURI res.host res.sid := rfl

theorem foundPopulate_deviceId (d0 : DeviceDetails) (now : Nat) (res : OCResourceM) :
    (foundPopulate d0 now res).deviceId = d0.deviceId := by
  unfold foundPopulate
  dsimp only
  split_ifs <;> rfl

theorem foundPopulate_deviceUris (d0 : DeviceDetails) (now : Nat) (res : OCResourceM) :
    (foundPopulate d0 now res).deviceUris =
      if res.host ∈ d0.deviceUris then d0.deviceUris
      else d0.deviceUris ++ [res.host] := by
  unfold foundPopulate
  dsimp only
  split_ifs <;> rfl

theorem foundFinal_deviceId (st : OCFFramework) (now : Nat) (res : OCResourceM) :
    (foundFinal st now res).deviceId = (foundBase st now res).deviceId := by
  unfold foundFinal
  split
  · rw [getCommon_deviceId, foundPopulate_deviceId]
  · rw [foundPopulate_deviceId]

theorem foundFinal_deviceUris (st : OCFFramework) (now : Nat) (res : OCResourceM) :
    (foundFinal st now res).deviceUris =
      if res.host ∈ (foundBase st now res).deviceUris then
        (foundBase st now res).deviceUris
      else (foundBase st now res).deviceUris ++ [res.host] := by
  unfold foundFinal
  split
  · rw [getCommon_deviceUris, foundPopulate_deviceUris]
  · rw [foundPopulate_deviceUris]

theorem foundBase_of_some {st : OCFFramework} {now : Nat} {res : OCResourceM}
    {d : DeviceDetails} (h : mapLookup st.m_OCFDevices res.sid = some d) :
    foundBase st now res = d := by
  unfold foundBase
  rw [h]

theorem foundBase_of_none {st : OCFFramework} {now : Nat} {res : OCResourceM}
    (h : mapLookup st.m_OCFDevices res.sid = none) :
    foundBase st now res = freshDeviceDetails res.sid now := by
  unfold foundBase
  rw [h]

theorem foundBase_uris_sub (st : OCFFramework) (now : Nat) (res : OCResourceM) :
    ∀ u ∈ (foundBase st now res).deviceUris, u ∈ (foundFinal st now res).deviceUris := by
  intro u hu
  rw [foundFinal_deviceUris]
  split_ifs
  · exact hu
  · exact List.mem_append_left _ hu

theorem found_preserves (st : OCFFramework) (now : Nat) (res : OCResourceM)
    (h : RegistryWF st ∧ IndexSound st) :
    RegistryWF (onResourceFound st now res) ∧
      IndexSound (onResourceFound st now res) := by
  obtain ⟨⟨hnd, hkm⟩, hsd⟩ := h
  have hbid : (foundBase st now res).deviceId = res.sid := by
    unfold foundBase
    split
    · rename_i d hl
      exact hkm _ (mapLookup_mem hl)
    · rfl
  have hwit : ∀ q ∈ st.m_OCFDevicesIndexedByDeviceURI,
      ∃ p ∈ (onResourceFound st now res).m_OCFDevices,
        p.1 = q.2 ∧ q.1 ∈ p.2.deviceUris := by
    intro q hq
    obtain ⟨p, hpmem, hpk, hpu⟩ := hsd q hq
    rw [onResourceFound_devices]
    rcases mem_mapInsert_or_first (k := res.sid) (v := foundFinal st now res)
        hpmem with h' | h'
    · exact ⟨p, h', hpk, hpu⟩
    · have hbase : foundBase st now res = p.2 := foundBase_of_some h'.2
      refine ⟨(res.sid, foundFinal st now res), mem_mapInsert_self _ _ _, ?_, ?_⟩
      · rw [← hpk, h'.1]
      · exact foundBase_uris_sub st now res q.1 (by rw [hbase]; exact hpu)
  refine ⟨⟨?_, ?_⟩, ?_⟩
  · show NodupKeys (onResourceFound st now res).m_OCFDevices
    rw [onResourceFound_devices]
    exact nodupKeys_mapInsert _ _ hnd
  · intro p hp
    rw [onResourceFound_devices] at hp
    rcases mem_mapInsert_elim hp with h' | h'
    · rw [h']
      show (foundFinal st now res).deviceId = res.sid
      rw [foundFinal_deviceId, hbid]
    · exact hkm _ h'
  · intro q hq
    rw [onResourceFound_idx] at hq
    by_cases hin : res.host ∈ (foundBase st now res).deviceUris
    · rw [if_pos hin] at hq
      exact hwit q hq
    · rw [if_neg hin] at hq
      rcases mem_mapInsert_elim hq with h' | h'
      · rw [h']
        refine ⟨(res.sid, foundFinal st now res), ?_, rfl, ?_⟩
        · rw [onResourceFound_devices]
          exact mem_mapInsert_self _ _ _
        · show res.host ∈ (foundFinal st now res).deviceUris
          rw [foundFinal_deviceUris, if_neg hin]
          exact List.mem_append_right _ (by simp)
      · exact hwit q h'

theorem found_preserves_full (st : OCFFramework) (now : Nat) (res : OCResourceM)
    (h : RegistryWF st ∧ IndexSound st ∧ UrisIndexed st)
    (hc : ∀ p ∈ st.m_OCFDevices, res.host ∈ p.2.deviceUris → p.1 = res.sid) :
    RegistryWF (onResourceFound st now res) ∧
      IndexSound (onResourceFound st now res) ∧
      UrisIndexed (onResourceFound st now res) := by
  obtain ⟨hwf, hsd, hur⟩ := h
  obtain ⟨hwf', hsd'⟩ := found_preserves st now res ⟨hwf, hsd⟩
  refine ⟨hwf', hsd', ?_⟩
  intro p hp u hu
  rw [onResourceFound_devices] at hp
  rw [onResourceFound_idx]
  rcases (mem_mapInsert_iff_of_nodup hwf.1 res.sid (foundFinal st now res) p).mp hp
      with h' | ⟨hpm, hpne⟩
  · subst h'
    have hu' : u ∈ (foundFinal st now res).deviceUris := hu
    rw [foundFinal_deviceUris] at hu'
    by_cases hin : res.host ∈ (foundBase st now res).deviceUris
    · rw [if_pos hin] at hu'
      rw [if_pos hin]
      cases hl : mapLookup st.m_OCFDevices res.sid with
      | some d =>
          have hbase : foundBase st now res = d := foundBase_of_some hl
          rw [hbase] at hu'
          exact hur (res.sid, d) (mapLookup_mem hl) u hu'
      | none =>
          exfalso
          rw [foundBase_of_none hl] at hu'
          simp [freshDeviceDetails] at hu'
    · rw [if_neg hin] at hu'
      rw [if_neg hin]
      rcases List.mem_append.mp hu' with h2 | h2
      · have hune : u ≠ res.host := fun hh => hin (hh ▸ h2)
        rw [mapLookup_insert, if_neg hune]
        cases hl : mapLookup st.m_OCFDevices res.sid with
        | some d =>
            have hbase : foundBase st now res = d := foundBase_of_some hl
            rw [hbase] at h2
            exact hur (res.sid, d) (mapLookup_mem hl) u h2
        | none =>
            exfalso
            rw [foundBase_of_none hl] at h2
            simp [freshDeviceDetails] at h2
      · have huh : u = res.host := by simpa using h2
        rw [huh, mapLookup_insert, if_pos rfl]
  · by_cases hin : res.host ∈ (foundBase st now res).deviceUris
    · rw [if_pos hin]
      exact hur p hpm u hu
    · rw [if_neg hin]
      by_cases huh : u = res.host
      · exact absurd (hc p hpm (huh ▸ hu)) hpne
      · rw [mapLookup_insert, if_neg huh]
        exact hur p hpm u hu

theorem devInfoUpdated_deviceId (d : DeviceDetails) (host name icv : String) :
    (devInfoUpdated d host name icv).deviceId = d.deviceId := by
  unfold devInfoUpdated
  dsimp only
  split_ifs <;> rfl

theorem devInfoUpdated_deviceUris_of_mem {d : DeviceDetails}
    {host : String} (name icv : String) (hin : host ∈ d.deviceUris) :
    (devInfoUpdated d host name icv).deviceUris = d.deviceUris := by
  unfold devInfoUpdated
  dsimp only
  split_ifs
  rfl

theorem devInfo_preserves (st : OCFFramework) (host name icv : String)
    (hwf : RegistryWF st) (hsd : IndexSound st) :
    (RegistryWF (onDeviceInfoCallback st host name icv) ∧
      IndexSound (onDeviceInfoCallback st host name icv)) ∧
    (UrisIndexed st → UrisIndexed (onDeviceInfoCallback st host name icv)) := by
  unfold onDeviceInfoCallback
  split
  · exact ⟨⟨hwf, hsd⟩, fun hu => hu⟩
  · rename_i id hq
    split
    · exact ⟨⟨hwf, hsd⟩, fun hu => hu⟩
    · rename_i d hl
      split
      · exact ⟨⟨hwf, hsd⟩, fun hu => hu⟩
      · have hmemidx : (host, id) ∈ st.m_OCFDevicesIndexedByDeviceURI :=
          mapLookup_mem hq
        obtain ⟨p, hpm, hpk, hpu⟩ := hsd _ hmemidx
        have hpl : mapLookup st.m_OCFDevices id = some p.2 := by
          have h1 := mem_lookup_of_nodup hwf.1 hpm
          rw [hpk] at h1
          exact h1
        have hp2 : p.2 = d := by
          rw [hl] at hpl
          injection hpl with h2
          exact h2.symm
        have hin : host ∈ d.deviceUris := by
          rw [← hp2]
          exact hpu
        rw [if_pos hin]
        obtain ⟨h1, h2, h3⟩ := inv_update_entry
          (devInfoUpdated d host name icv) hwf hl
          (devInfoUpdated_deviceId d host name icv)
          (devInfoUpdated_deviceUris_of_mem name icv hin)
        exact ⟨⟨h1, h2 hsd⟩, h3⟩

/-! `WorkerTick` decomposition lemmas. -/

theorem workerTick_eq (st : OCFFramework) (now : Nat) :
    WorkerTick st now =
      ((tickGetCommonList st now).map Prod.fst).foldl applyGetCommonById
        (((tickIdleList st now).map Prod.snd).foldl evictOne
          { st with
            m_OCFDevices :=
              st.m_OCFDevices.map (fun p => (p.1, tickUpdateEntry now p.2)) }) := rfl

theorem foldl_evictOne_devices (ds : List DeviceDetails) (st : OCFFramework) :
    (ds.foldl evictOne st).m_OCFDevices =
      (ds.map DeviceDetails.deviceId).foldl mapErase st.m_OCFDevices := by
  induction ds generalizing st with
  | nil => rfl
  | cons d ds ih =>
      simp only [List.foldl_cons, List.map_cons]
      rw [ih]
      rfl

theorem foldl_evictOne_idx (ds : List DeviceDetails) (st : OCFFramework) :
    (ds.foldl evictOne st).m_OCFDevicesIndexedByDeviceURI =
      ds.foldl (fun ix d => d.deviceUris.foldl mapErase ix)
        st.m_OCFDevicesIndexedByDeviceURI := by
  induction ds generalizing st with
  | nil => rfl
  | cons d ds ih =>
      simp only [List.foldl_cons]
      rw [ih]
      rfl

theorem mapLookup_foldl_eraseUris (ds : List DeviceDetails)
    (ix : List (String × String)) (u : String) :
    mapLookup (ds.foldl (fun ix d => d.deviceUris.foldl mapErase ix) ix) u =
      if ∃ d ∈ ds, u ∈ d.deviceUris then none else mapLookup ix u := by
  induction ds generalizing ix with
  | nil => simp
  | cons d ds ih =>
      simp only [List.foldl_cons]
      rw [ih]
      by_cases h1 : ∃ d' ∈ ds, u ∈ d'.deviceUris
      · rw [if_pos h1, if_pos]
        obtain ⟨d', hd', hu⟩ := h1
        exact ⟨d', List.mem_cons_of_mem _ hd', hu⟩
      · rw [if_neg h1, mapLookup_foldl_erase]
        by_cases h2 : u ∈ d.deviceUris
        · rw [if_pos h2, if_pos]
          exact ⟨d, List.mem_cons_self _ _, h2⟩
        · rw [if_neg h2, if_neg]
          intro hcon
          obtain ⟨d', hd', hu⟩ := hcon
          rcases List.mem_cons.mp hd' with h' | h'
          · exact h2 (h' ▸ hu)
          · exact h1 ⟨d', h', hu⟩

theorem mem_foldl_eraseUrisList_elim {ds : List DeviceDetails}
    {ix : List (String × String)} {q : String × String}
    (h : q ∈ ds.foldl (fun ix d => d.deviceUris.foldl mapErase ix) ix) :
    q ∈ ix ∧ ∀ d ∈ ds, q.1 ∉ d.deviceUris := by
  induction ds generalizing ix with
  | nil => simpa using h
  | cons d ds ih =>
      simp only [List.foldl_cons] at h
      obtain ⟨h1, h2⟩ := ih h
      obtain ⟨h3, h4⟩ := mem_foldl_erase_elim h1
      refine ⟨h3, ?_⟩
      intro d' hd'
      rcases List.mem_cons.mp hd' with h' | h'
      · rw [h']
        exact h4
      · exact h2 d' h'

theorem nodupKeys_foldl_erase {α : Type} (ks : List String)
    {m : List (String × α)} (h : NodupKeys m) :
    NodupKeys (ks.foldl mapErase m) :=
  foldl_preserves mapErase NodupKeys (fun m k hm => nodupKeys_mapErase k hm) ks m h

theorem mapEntries_keys (f : DeviceDetails → DeviceDetails)
    (m : List (String × DeviceDetails)) :
    (m.map (fun p => (p.1, f p.2))).map Prod.fst = m.map Prod.fst := by
  induction m with
  | nil => rfl
  | cons p rest ih => simp only [List.map_cons, ih]

/-- The registry after the in-lock scan pass of the tick (flag flips only). -/
def tickScanState (st : OCFFramework) (now : Nat) : OCFFramework :=
  { st with
    m_OCFDevices := st.m_OCFDevices.map (fun p => (p.1, tickUpdateEntry now p.2)) }

/-- The registry after the scan pass and the eviction pass of the tick. -/
def tickEvictState (st : OCFFramework) (now : Nat) : OCFFramework :=
  ((tickIdleList st now).map Prod.snd).foldl evictOne (tickScanState st now)

theorem workerTick_decomp (st : OCFFramework) (now : Nat) :
    WorkerTick st now =
      ((tickGetCommonList st now).map Prod.fst).foldl applyGetCommonById
        (tickEvictState st now) := rfl

theorem tickScan_preserves (st : OCFFramework) (now : Nat)
    (hnd : NodupKeys st.m_OCFDevices) (hkm : KeysMatch st) (hsd : IndexSound st) :
    RegistryWF (tickScanState st now) ∧ IndexSound (tickScanState st now) ∧
      (UrisIndexed st → UrisIndexed (tickScanState st now)) := by
  refine ⟨⟨?_, ?_⟩, ?_, ?_⟩
  · show NodupKeys (tickScanState st now).m_OCFDevices
    unfold tickScanState
    dsimp only
    rw [NodupKeys, mapEntries_keys]
    exact hnd
  · intro p hp
    unfold tickScanState at hp
    dsimp only at hp
    rcases List.mem_map.mp hp with ⟨p₀, hp₀, hpe⟩
    rw [← hpe]
    dsimp only
    rw [tickUpdateEntry_deviceId]
    exact hkm _ hp₀
  · intro q hq
    obtain ⟨p, hpm, hpk, hpu⟩ := hsd q hq
    refine ⟨(p.1, tickUpdateEntry now p.2),
      List.mem_map.mpr ⟨p, hpm, rfl⟩, hpk, ?_⟩
    dsimp only
    rw [tickUpdateEntry_deviceUris]
    exact hpu
  · intro hur p hp u hu
    unfold tickScanState at hp ⊢
    dsimp only at hp ⊢
    rcases List.mem_map.mp hp with ⟨p₀, hp₀, hpe⟩
    have hfst : p.1 = p₀.1 := by rw [← hpe]
    have huris : p.2.deviceUris = p₀.2.deviceUris := by
      rw [← hpe]
      dsimp only
      rw [tickUpdateEntry_deviceUris]
    rw [hfst]
    rw [huris] at hu
    exact hur p₀ hp₀ u hu

theorem tickIdle_facts (st : OCFFramework) (now : Nat) (hkm : KeysMatch st) :
    ∀ d ∈ (tickIdleList st now).map Prod.snd,
      ∃ p₀ ∈ st.m_OCFDevices,
        p₀.2 = d ∧ idleDevice now d = true ∧ d.deviceId = p₀.1 := by
  intro d hd
  rcases List.mem_map.mp hd with ⟨p₀, hp₀, hpe⟩
  have hfil : p₀ ∈ st.m_OCFDevices.filter (fun p => idleDevice now p.2) := hp₀
  have hf := List.mem_filter.mp hfil
  refine ⟨p₀, hf.1, hpe, ?_, ?_⟩
  · rw [← hpe]
    exact hf.2
  · rw [← hpe]
    exact hkm _ hf.1

theorem tickEvict_preserves (st : OCFFramework) (now : Nat)
    (hnd : NodupKeys st.m_OCFDevices) (hkm : KeysMatch st) (hsd : IndexSound st) :
    (RegistryWF (tickEvictState st now) ∧ IndexSound (tickEvictState st now)) ∧
    (UrisIndexed st → UrisIndexed (tickEvictState st now)) := by
  obtain ⟨⟨hndS, hkmS⟩, hsdS, hurS⟩ := tickScan_preserves st now hnd hkm hsd
  have hdev : (tickEvictState st now).m_OCFDevices =
      (((tickIdleList st now).map Prod.snd).map DeviceDetails.deviceId).foldl
        mapErase (tickScanState st now).m_OCFDevices :=
    foldl_evictOne_devices _ _
  have hidx : (tickEvictState st now).m_OCFDevicesIndexedByDeviceURI =
      ((tickIdleList st now).map Prod.snd).foldl
        (fun ix d => d.deviceUris.foldl mapErase ix)
        st.m_OCFDevicesIndexedByDeviceURI :=
    foldl_evictOne_idx _ _
  have hds := tickIdle_facts st now hkm
  -- a member of the scanned list with an erased key carries an idle entry's URIs
  have hscan_entry : ∀ p ∈ (tickScanState st now).m_OCFDevices,
      ∃ p₁ ∈ st.m_OCFDevices, p.1 = p₁.1 ∧ p.2.deviceUris = p₁.2.deviceUris := by
    intro p hp
    unfold tickScanState at hp
    dsimp only at hp
    rcases List.mem_map.mp hp with ⟨p₁, hp₁, hpe⟩
    refine ⟨p₁, hp₁, ?_, ?_⟩
    · rw [← hpe]
    · rw [← hpe]
      dsimp only
      rw [tickUpdateEntry_deviceUris]
  refine ⟨⟨⟨?_, ?_⟩, ?_⟩, ?_⟩
  · show NodupKeys (tickEvictState st now).m_OCFDevices
    rw [hdev]
    exact nodupKeys_foldl_erase _ hndS
  · intro p hp
    rw [hdev] at hp
    exact hkmS _ (mem_foldl_erase_elim hp).1
  · intro q hq
    rw [hidx] at hq
    obtain ⟨hqm, hqnot⟩ := mem_foldl_eraseUrisList_elim hq
    obtain ⟨p, hpm, hpk, hpu⟩ := hsdS q hqm
    have hsurv : p.1 ∉ ((tickIdleList st now).map Prod.snd).map DeviceDetails.deviceId := by
      intro hin
      rcases List.mem_map.mp hin with ⟨d, hd, hde⟩
      obtain ⟨p₀, hp₀, hp₀e, hidle, hdid⟩ := hds d hd
      obtain ⟨p₁, hp₁, hfst, huris⟩ := hscan_entry p hpm
      have hkeq : p₁.1 = p₀.1 := by
        rw [← hfst, ← hde, hdid]
      have hpeq : p₁ = p₀ := nodup_mem_eq hnd hp₁ hp₀ hkeq
      have : q.1 ∈ d.deviceUris := by
        rw [← hp₀e, ← hpeq, ← huris]
        exact hpu
      exact hqnot d hd this
    refine ⟨p, ?_, hpk, hpu⟩
    rw [hdev]
    exact mem_foldl_erase_of hpm hsurv
  · intro hur p hp u hu
    rw [hdev] at hp
    obtain ⟨hpmS, hpnot⟩ := mem_foldl_erase_elim hp
    obtain ⟨p₁, hp₁, hfst, huris⟩ := hscan_entry p hpmS
    have hu₁ : u ∈ p₁.2.deviceUris := by
      rw [← huris]
      exact hu
    show mapLookup (tickEvictState st now).m_OCFDevicesIndexedByDeviceURI u = some p.1
    rw [hidx, mapLookup_foldl_eraseUris]
    by_cases hcase : ∃ d ∈ (tickIdleList st now).map Prod.snd, u ∈ d.deviceUris
    · exfalso
      obtain ⟨d, hd, hud⟩ := hcase
      obtain ⟨p₀, hp₀, hp₀e, hidle, hdid⟩ := hds d hd
      have h1 : mapLookup st.m_OCFDevicesIndexedByDeviceURI u = some p₀.1 := by
        refine hur p₀ hp₀ u ?_
        rw [hp₀e]
        exact hud
      have h2 : mapLookup st.m_OCFDevicesIndexedByDeviceURI u = some p₁.1 :=
        hur p₁ hp₁ u hu₁
      have hkeq : p₁.1 = p₀.1 := by
        rw [h1] at h2
        injection h2 with h3
        exact h3.symm
      refine hpnot (List.mem_map.mpr ⟨d, hd, ?_⟩)
      rw [hdid, ← hkeq, ← hfst]
    · rw [if_neg hcase, hfst]
      exact hur p₁ hp₁ u hu₁

theorem tick_preserves (st : OCFFramework) (now : Nat)
    (hwf : RegistryWF st) (hsd : IndexSound st) :
    (RegistryWF (WorkerTick st now) ∧ IndexSound (WorkerTick st now)) ∧
    (UrisIndexed st → UrisIndexed (WorkerTick st now)) := by
  obtain ⟨hE, hEU⟩ := tickEvict_preserves st now hwf.1 hwf.2 hsd
  constructor
  · rw [workerTick_decomp]
    exact foldl_preserves applyGetCommonById
      (fun s => RegistryWF s ∧ IndexSound s)
      (fun s a hs => (applyGetCommon_preserves s a hs.1 hs.2).1)
      _ _ hE
  · intro hur
    have hall := foldl_preserves applyGetCommonById
      (fun s => RegistryWF s ∧ IndexSound s ∧ UrisIndexed s)
      (fun s a hs =>
        ⟨(applyGetCommon_preserves s a hs.1 hs.2.1).1.1,
         (applyGetCommon_preserves s a hs.1 hs.2.1).1.2,
         (applyGetCommon_preserves s a hs.1 hs.2.1).2 hs.2.2⟩)
      ((tickGetCommonList st now).map Prod.fst) (tickEvictState st now)
      ⟨hE.1, hE.2, hEU hur⟩
    rw [workerTick_decomp]
    exact hall.2.2

/-- The per-event side condition under which the two maps stay mutually
consistent: a discovery callback must not report a host URI that is already
recorded in a different device's `deviceUris` (the index write in
`OnResourceFound` would silently repoint that URI). -/
def eventHostOk (st : OCFFramework) (e : Event) : Prop :=
  match e with
  | .found _ res =>
      ∀ p ∈ st.m_OCFDevices, res.host ∈ p.2.deviceUris → p.1 = res.sid
  | _ => True

/-- Executable check that every discovery callback of a trace satisfies
`eventHostOk` in the state it is applied to. -/
def traceHostOkB : OCFFramework → List Event → Bool
  | _, [] => true
  | st, e :: rest =>
      (match e with
       | .found _ res =>
           st.m_OCFDevices.all
             (fun p => decide (res.host ∈ p.2.deviceUris → p.1 = res.sid))
       | _ => true) && traceHostOkB (step st e) rest

theorem traceHostOkB_cons {st : OCFFramework} {e : Event} {tr : List Event}
    (h : traceHostOkB st (e :: tr) = true) :
    eventHostOk st e ∧ traceHostOkB (step st e) tr = true := by
  unfold traceHostOkB at h
  rw [Bool.and_eq_true] at h
  refine ⟨?_, h.2⟩
  cases e with
  | found now res =>
      intro p hp hmem
      have h1 := h.1
      rw [List.all_eq_true] at h1
      exact of_decide_eq_true (h1 p hp) hmem
  | devInfo host name icv => trivial
  | platInfo host => trivial
  | tick now => trivial
  | openDev id => trivial
  | closeDev now id => trivial

theorem step_preserves (st : OCFFramework) (e : Event)
    (hwf : RegistryWF st) (hsd : IndexSound st) :
    RegistryWF (step st e) ∧ IndexSound (step st e) := by
  cases e with
  | found now res => exact found_preserves st now res ⟨hwf, hsd⟩
  | devInfo host name icv => exact (devInfo_preserves st host name icv hwf hsd).1
  | platInfo host => exact (platInfo_preserves st host hwf hsd).1
  | tick now => exact (tick_preserves st now hwf hsd).1
  | openDev id => exact (openDev_preserves st id hwf hsd).1
  | closeDev now id => exact (closeDev_preserves st now id hwf hsd).1

theorem step_preserves_full (st : OCFFramework) (e : Event)
    (hwf : RegistryWF st) (hsd : IndexSound st) (hur : UrisIndexed st)
    (hc : eventHostOk st e) :
    RegistryWF (step st e) ∧ IndexSound (step st e) ∧ UrisIndexed (step st e) := by
  cases e with
  | found now res =>
      exact found_preserves_full st now res ⟨hwf, hsd, hur⟩ hc
  | devInfo host name icv =>
      obtain ⟨⟨h1, h2⟩, h3⟩ := devInfo_preserves st host name icv hwf hsd
      exact ⟨h1, h2, h3 hur⟩
  | platInfo host =>
      obtain ⟨⟨h1, h2⟩, h3⟩ := platInfo_preserves st host hwf hsd
      exact ⟨h1, h2, h3 hur⟩
  | tick now =>
      obtain ⟨⟨h1, h2⟩, h3⟩ := tick_preserves st now hwf hsd
      exact ⟨h1, h2, h3 hur⟩
  | openDev id =>
      obtain ⟨⟨h1, h2⟩, h3⟩ := openDev_preserves st id hwf hsd
      exact ⟨h1, h2, h3 hur⟩
  | closeDev now id =>
      obtain ⟨⟨h1, h2⟩, h3⟩ := closeDev_preserves st now id hwf hsd
      exact ⟨h1, h2, h3 hur⟩

theorem runTrace_cons (st : OCFFramework) (e : Event) (tr : List Event) :
    runTrace st (e :: tr) = runTrace (step st e) tr := rfl

theorem runTrace_preserves (tr : List Event) (st : OCFFramework)
    (hwf : RegistryWF st) (hsd : IndexSound st) :
    RegistryWF (runTrace st tr) ∧ IndexSound (runTrace st tr) := by
  induction tr generalizing st with
  | nil => exact ⟨hwf, hsd⟩
  | cons e tr ih =>
      obtain ⟨h1, h2⟩ := step_preserves st e hwf hsd
      rw [runTrace_cons]
      exact ih (step st e) h1 h2

theorem runTrace_preserves_full (tr : List Event) (st : OCFFramework)
    (hwf : RegistryWF st) (hsd : IndexSound st) (hur : UrisIndexed st)
    (hc : traceHostOkB st tr = true) :
    RegistryWF (runTrace st tr) ∧ IndexSound (runTrace st tr) ∧
      UrisIndexed (runTrace st tr) := by
  induction tr generalizing st with
  | nil => exact ⟨hwf, hsd, hur⟩
  | cons e tr ih =>
      obtain ⟨hce, hcr⟩ := traceHostOkB_cons hc
      obtain ⟨h1, h2, h3⟩ := step_preserves_full st e hwf hsd hur hce
      rw [runTrace_cons]
      exact ih (step st e) h1 h2 h3 hcr

theorem emptyOCFFramework_wf :
    RegistryWF emptyOCFFramework ∧ IndexSound emptyOCFFramework ∧
      UrisIndexed emptyOCFFramework := by
  refine ⟨⟨?_, ?_⟩, ?_, ?_⟩
  · simp [emptyOCFFramework, NodupKeys]
  · intro p hp
    simp [emptyOCFFramework] at hp
  · intro q hq
    simp [emptyOCFFramework] at hq
  · intro p hp
    simp [emptyOCFFramework] at hp

/-- C1 (amended).  For every sequence of discovery callbacks
(`OnResourceFound`), device-info callbacks (`OnDeviceInfoCallback`),
platform-info callbacks, maintenance-tick evictions (`WorkerThread`) and
open/close calls applied to an initially empty registry: every
secondary-index key maps to an entry of the primary map whose `deviceUris`
contains it (this direction holds unconditionally); and provided no
discovery callback ever reports a host URI already recorded in a different
device's `deviceUris`, every URI in any entry's `deviceUris` also has a
secondary-index mapping back to that same entry.  Without the proviso the
second direction fails (see the counterexample). -/
theorem C1_secondary_index_projection (tr : List Event) :
    IndexSound (runTrace emptyOCFFramework tr) ∧
      (traceHostOkB emptyOCFFramework tr = true →
        UrisIndexed (runTrace emptyOCFFramework tr)) := by
  obtain ⟨hwf0, hsd0, hur0⟩ := emptyOCFFramework_wf
  constructor
  · exact (runTrace_preserves tr _ hwf0 hsd0).2
  · intro hc
    exact (runTrace_preserves_full tr _ hwf0 hsd0 hur0 hc).2.2

/-- Witness for C1: a concrete trace (two devices on distinct hosts, a
device-info response, an open/close pair and a maintenance tick) on which
both directions of the invariant hold. -/
theorem C1_secondary_index_projection_witness :
    IndexSound (runTrace emptyOCFFramework
      [Event.found 0 ⟨"A", "/a", "coap://h1", ["t1"], ["if.b"], true⟩,
       Event.found 1 ⟨"B", "/b", "coap://h2", ["t2"], ["if.b"], false⟩,
       Event.devInfo "coap://h1" "Alpha" "ocf.1.0",
       Event.openDev "A", Event.closeDev 3 "A", Event.tick 4]) ∧
    UrisIndexed (runTrace emptyOCFFramework
      [Event.found 0 ⟨"A", "/a", "coap://h1", ["t1"], ["if.b"], true⟩,
       Event.found 1 ⟨"B", "/b", "coap://h2", ["t2"], ["if.b"], false⟩,
       Event.devInfo "coap://h1" "Alpha" "ocf.1.0",
       Event.openDev "A", Event.closeDev 3 "A", Event.tick 4]) :=
  ⟨(C1_secondary_index_projection _).1,
   (C1_secondary_index_projection _).2 (by decide)⟩

/-- Counterexample to C1 as stated: two discovery callbacks carrying
different device ids but the same host URI.  The second callback repoints
the index entry for `coap://h` at device `B` while `coap://h` stays in
device `A`'s `deviceUris`, so the "every URI in any device entry's
`deviceUris` has a secondary-index mapping to that same entry" direction is
false after this sequence. -/
theorem C1_secondary_index_counterexample :
    ¬ UrisIndexed (runTrace emptyOCFFramework
      [Event.found 0 ⟨"A", "/a", "coap://h", ["t1"], ["if.b"], true⟩,
       Event.found 0 ⟨"B", "/b", "coap://h", ["t2"], ["if.b"], false⟩]) := by
  decide

/-- C2 (amended).  A dispatched operation on a device id with no entry in
the primary map returns `IPCA_FAIL` — the status `FindDeviceDetails`
produces for an absent entry, propagated unchanged by
`SendCommandToDevice` — synchronously, and dispatches no protocol request
(second component `none`), so no terminal listener callback is ever
delivered for the call.  The claim's `IPCA_DEVICE_NOT_DISCOVERED` is not
what this path returns (see the counterexample). -/
theorem C2_unknown_device_fails (st : OCFFramework) (deviceId : String)
    (callbackInfo : CallbackInfo) (opResult : Nat)
    (h : mapLookup st.m_OCFDevices deviceId = none) :
    SendCommandToDevice st deviceId callbackInfo opResult = (IPCA_FAIL, none) ∧
      (FindDeviceDetails st deviceId).1 = IPCA_FAIL := by
  unfold SendCommandToDevice FindDeviceDetails
  rw [h]
  exact ⟨rfl, rfl⟩

/-- Witness for C2: a get dispatched for the unknown id `Z` on the empty
registry. -/
theorem C2_unknown_device_fails_witness :
    SendCommandToDevice emptyOCFFramework "Z"
        ⟨CallbackType.GetPropertiesComplete, "/a", "", ""⟩ 0 =
      (IPCA_FAIL, none) ∧
    (FindDeviceDetails emptyOCFFramework "Z").1 = IPCA_FAIL :=
  C2_unknown_device_fails emptyOCFFramework "Z"
    ⟨CallbackType.GetPropertiesComplete, "/a", "", ""⟩ 0 (by decide)

/-- Counterexample to C2 as stated: on the empty registry the status
returned for the unknown device `Z` is not `IPCA_DEVICE_NOT_DISCOVERED`
(it is `IPCA_FAIL`). -/
theorem C2_counterexample :
    (SendCommandToDevice emptyOCFFramework "Z"
        ⟨CallbackType.GetPropertiesComplete, "/a", "", ""⟩ 0).1 ≠
      IPCA_DEVICE_NOT_DISCOVERED := by
  decide

/-- C3.  For every terminal protocol code delivered to a set, create
(`OnPostPut`) or delete (`OnDelete`) operation: `OK`, `Continue` and
`ResourceChanged` map to `Ok`; `Unauthorized` maps to `AccessDenied`;
`ResourceCreated` and `ResourceDeleted` map to themselves; every other code
maps to `Fail`; and the handlers deliver exactly the mapped status to every
registered listener. -/
theorem C3_set_create_delete_status_mapping (c : Nat) :
    MapOCStackResultToIPCAStatus OC_STACK_OK = IPCA_OK ∧
    MapOCStackResultToIPCAStatus OC_STACK_CONTINUE = IPCA_OK ∧
    MapOCStackResultToIPCAStatus OC_STACK_RESOURCE_CHANGED = IPCA_OK ∧
    MapOCStackResultToIPCAStatus OC_STACK_UNAUTHORIZED_REQ = IPCA_ACCESS_DENIED ∧
    MapOCStackResultToIPCAStatus OC_STACK_RESOURCE_CREATED = IPCA_RESOURCE_CREATED ∧
    MapOCStackResultToIPCAStatus OC_STACK_RESOURCE_DELETED = IPCA_RESOURCE_DELETED ∧
    (c ≠ OC_STACK_OK → c ≠ OC_STACK_CONTINUE → c ≠ OC_STACK_RESOURCE_CHANGED →
      c ≠ OC_STACK_UNAUTHORIZED_REQ → c ≠ OC_STACK_RESOURCE_CREATED →
      c ≠ OC_STACK_RESOURCE_DELETED →
      MapOCStackResultToIPCAStatus c = IPCA_FAIL) ∧
    (∀ st : OCFFramework, ∀ q ∈ OnPostPut st c,
      q.2 = MapOCStackResultToIPCAStatus c) ∧
    (∀ st : OCFFramework, ∀ q ∈ OnDelete st c,
      q.2 = MapOCStackResultToIPCAStatus c) := by
  refine ⟨by decide, by decide, by decide, by decide, by decide, by decide,
    ?_, ?_, ?_⟩
  · intro h1 h2 h3 h4 h5 h6
    unfold MapOCStackResultToIPCAStatus
    rw [if_neg (by rintro (h | h | h); exacts [h1 h, h2 h, h3 h]),
      if_neg h4, if_neg h5, if_neg h6]
  · intro st q hq
    rcases List.mem_map.mp hq with ⟨cb, hcb, he⟩
    rw [← he]
  · intro st q hq
    rcases List.mem_map.mp hq with ⟨cb, hcb, he⟩
    rw [← he]

/-- Witness for C3: the code 77, none of the six named ones, maps to
`IPCA_FAIL`. -/
theorem C3_set_create_delete_status_mapping_witness :
    MapOCStackResultToIPCAStatus 77 = IPCA_FAIL :=
  (C3_set_create_delete_status_mapping 77).2.2.2.2.2.2.1
    (by decide) (by decide) (by decide) (by decide) (by decide) (by decide)

/-- C4.  For every terminal protocol code delivered to a get (`OnGet`) or
observe (`OnObserve`) operation, the status reported to listeners is `Fail`
exactly when the code is strictly greater than `OC_STACK_RESOURCE_CHANGED`
and `Ok` otherwise; in particular the unauthorized code maps to `Fail`,
not `AccessDenied`, on this path. -/
theorem C4_get_observe_status_mapping (c : Nat) :
    (OnGetStatus c = IPCA_FAIL ↔ OC_STACK_RESOURCE_CHANGED < c) ∧
    (OnGetStatus c = IPCA_OK ↔ c ≤ OC_STACK_RESOURCE_CHANGED) ∧
    OnObserveStatus c = OnGetStatus c ∧
    OnGetStatus OC_STACK_UNAUTHORIZED_REQ = IPCA_FAIL ∧
    OnGetStatus OC_STACK_UNAUTHORIZED_REQ ≠ IPCA_ACCESS_DENIED ∧
    OnObserveStatus OC_STACK_UNAUTHORIZED_REQ = IPCA_FAIL ∧
    OnObserveStatus OC_STACK_UNAUTHORIZED_REQ ≠ IPCA_ACCESS_DENIED ∧
    (∀ st : OCFFramework, ∀ q ∈ OnGet st c, q.2 = OnGetStatus c) ∧
    (∀ st : OCFFramework, ∀ q ∈ OnObserve st c, q.2 = OnObserveStatus c) := by
  refine ⟨?_, ?_, rfl, by decide, by decide, by decide, by decide, ?_, ?_⟩
  · unfold OnGetStatus
    constructor
    · intro hst
      by_contra hlt
      rw [if_neg hlt] at hst
      exact absurd hst (by decide)
    · intro hlt
      rw [if_pos hlt]
  · unfold OnGetStatus
    constructor
    · intro hst
      by_cases hlt : OC_STACK_RESOURCE_CHANGED < c
      · rw [if_pos hlt] at hst
        exact absurd hst (by decide)
      · omega
    · intro hle
      rw [if_neg (by omega)]
  · intro st q hq
    rcases List.mem_map.mp hq with ⟨cb, hcb, he⟩
    rw [← he]
  · intro st q hq
    rcases List.mem_map.mp hq with ⟨cb, hcb, he⟩
    rw [← he]

/-- Witness for C4: the unauthorized code 46 is strictly greater than 4 and
is reported as `IPCA_FAIL` on the get path. -/
theorem C4_get_observe_status_mapping_witness :
    OnGetStatus OC_STACK_UNAUTHORIZED_REQ = IPCA_FAIL :=
  (C4_get_observe_status_mapping OC_STACK_UNAUTHORIZED_REQ).1.mpr (by decide)

theorem findFirstByType_eq_find (rt : String) (m : List (String × OCResourceM)) :
    findFirstByType rt m =
      (m.find? (fun p => decide (rt ∈ p.2.resourceTypes))).map Prod.snd := by
  induction m with
  | nil => rfl
  | cons p rest ih =>
      obtain ⟨a, r⟩ := p
      by_cases h : rt ∈ r.resourceTypes
      · simp [findFirstByType, List.find?, h]
      · simp [findFirstByType, List.find?, h]
        exact ih

/-- C9.  Resource-handle selection for a dispatched operation: an exact
match on the requested resource path wins; with no exact match the first
resource in the map's enumeration order whose resource types contain the
requested type is returned; and when neither exists `SendCommandToDevice`
fails with `IPCA_RESOURCE_NOT_FOUND` (dispatching nothing). -/
theorem C9_resource_selection (d : DeviceDetails) (path rt : String) :
    (∀ r, mapLookup d.resourceMap path = some r →
      FindOCResource d path rt = some r) ∧
    (mapLookup d.resourceMap path = none →
      FindOCResource d path rt =
        (d.resourceMap.find? (fun p => decide (rt ∈ p.2.resourceTypes))).map
          Prod.snd) ∧
    (∀ (st : OCFFramework) (deviceId : String) (opResult : Nat),
      mapLookup st.m_OCFDevices deviceId = some d →
      FindOCResource d path rt = none →
      SendCommandToDevice st deviceId
          ⟨CallbackType.GetPropertiesComplete, path, rt, ""⟩ opResult =
        (IPCA_RESOURCE_NOT_FOUND, none)) := by
  refine ⟨?_, ?_, ?_⟩
  · intro r h
    unfold FindOCResource
    rw [h]
  · intro h
    unfold FindOCResource
    rw [h]
    exact findFirstByType_eq_find rt d.resourceMap
  · intro st deviceId opResult h1 h2
    unfold SendCommandToDevice
    rw [h1]
    dsimp only
    rw [h2]

/-- Witness for C9: a device with a single resource at `/a` of type `t1`;
exact path match returns it, and for a device with no matching path or type
the dispatcher reports `IPCA_RESOURCE_NOT_FOUND`. -/
theorem C9_resource_selection_witness :
    FindOCResource
        ⟨"A", ["coap://h1"],
          [("/a", ⟨"A", "/a", "coap://h1", ["t1"], ["if.b"], true⟩)],
          ["t1"], ["if.b"], ⟨"A", "", ""⟩, false, 1, false, 1, false, 1,
          0, 0, 0, false, 0, false⟩
        "/a" "" = some ⟨"A", "/a", "coap://h1", ["t1"], ["if.b"], true⟩ :=
  (C9_resource_selection _ "/a" "").1 _ (by decide)

/-- C10.  `IsResourceObservable` always writes its out-parameter: it is
`false` whenever the device id is not in the registry or the path is not a
key of the device's `resourceMap`, and it is the resource handle's
observability exactly when both lookups succeed. -/
theorem C10_is_resource_observable (st : OCFFramework)
    (deviceId resourcePath : String) :
    (mapLookup st.m_OCFDevices deviceId = none →
      IsResourceObservable st deviceId resourcePath = false) ∧
    (∀ d, mapLookup st.m_OCFDevices deviceId = some d →
      mapLookup d.resourceMap resourcePath = none →
      IsResourceObservable st deviceId resourcePath = false) ∧
    (∀ d r, mapLookup st.m_OCFDevices deviceId = some d →
      mapLookup d.resourceMap resourcePath = some r →
      IsResourceObservable st deviceId resourcePath = r.observable) := by
  refine ⟨?_, ?_, ?_⟩
  · intro h
    unfold IsResourceObservable
    rw [h]
  · intro d h1 h2
    unfold IsResourceObservable
    rw [h1]
    dsimp only
    rw [h2]
  · intro d r h1 h2
    unfold IsResourceObservable
    rw [h1]
    dsimp only
    rw [h2]

/-- Witness for C10: on a one-device registry the observable resource at
`/a` reports `true`, and the unknown device `Z` reports `false`. -/
theorem C10_is_resource_observable_witness :
    IsResourceObservable
        ({ m_OCFDevices := [("A",
            ⟨"A", ["coap://h1"],
              [("/a", ⟨"A", "/a", "coap://h1", ["t1"], ["if.b"], true⟩)],
              ["t1"], ["if.b"], ⟨"A", "", ""⟩, false, 1, false, 1, false, 1,
              0, 0, 0, false, 0, false⟩)]
           m_OCFDevicesIndexedByDeviceURI := [("coap://h1", "A")]
           m_callbacks := []
           m_OCFRequestAccessContexts := []
           m_isStopping := false } : OCFFramework) "A" "/a" = true ∧
    IsResourceObservable emptyOCFFramework "Z" "/a" = false :=
  ⟨(C10_is_resource_observable _ "A" "/a").2.2
      ⟨"A", ["coap://h1"],
        [("/a", ⟨"A", "/a", "coap://h1", ["t1"], ["if.b"], true⟩)],
        ["t1"], ["if.b"], ⟨"A", "", ""⟩, false, 1, false, 1, false, 1,
        0, 0, 0, false, 0, false⟩
      ⟨"A", "/a", "coap://h1", ["t1"], ["if.b"], true⟩ (by decide) (by decide),
   (C10_is_resource_observable emptyOCFFramework "Z" "/a").1 (by decide)⟩

/-- C6.  `RequestAccess` returns `IPCA_FAIL` without touching anything when
the lifecycle is stopping; for a registered device whose security workflow
is already started it returns `IPCA_FAIL` leaving the state unchanged and
spawning no worker; otherwise (registered device, workflow not started) it
marks the workflow started, stores a context keyed by the device id, spawns
the worker and returns `IPCA_OK` synchronously — and a second call for the
same device then fails without spawning, so at most one workflow runs per
device at a time. -/
theorem C6_request_access (st : OCFFramework) (deviceId : String) :
    (st.m_isStopping = true → RequestAccess st deviceId = (IPCA_FAIL, st, false)) ∧
    (∀ d, st.m_isStopping = false →
      mapLookup st.m_OCFDevices deviceId = some d →
      d.securityInfoIsStarted = true →
      RequestAccess st deviceId = (IPCA_FAIL, st, false)) ∧
    (∀ d, st.m_isStopping = false →
      mapLookup st.m_OCFDevices deviceId = some d →
      d.securityInfoIsStarted = false →
      (RequestAccess st deviceId).1 = IPCA_OK ∧
      (RequestAccess st deviceId).2.2 = true ∧
      mapLookup (RequestAccess st deviceId).2.1.m_OCFDevices deviceId =
        some { d with securityInfoIsStarted := true } ∧
      mapLookup (RequestAccess st deviceId).2.1.m_OCFRequestAccessContexts
        deviceId = some { deviceId := deviceId } ∧
      RequestAccess (RequestAccess st deviceId).2.1 deviceId =
        (IPCA_FAIL, (RequestAccess st deviceId).2.1, false)) := by
  refine ⟨?_, ?_, ?_⟩
  · intro h
    simp [RequestAccess, h]
  · intro d h0 h1 h2
    simp [RequestAccess, h0, h1, h2]
  · intro d h0 h1 h2
    have hfirst : RequestAccess st deviceId =
        (IPCA_OK,
          { st with
            m_OCFDevices := mapInsert st.m_OCFDevices deviceId
              { d with securityInfoIsStarted := true }
            m_OCFRequestAccessContexts :=
              mapInsert st.m_OCFRequestAccessContexts deviceId
                { deviceId := deviceId } },
          true) := by
      simp [RequestAccess, h0, h1, h2]
    rw [hfirst]
    refine ⟨rfl, rfl, ?_, ?_, ?_⟩
    · dsimp only
      rw [mapLookup_insert, if_pos rfl]
    · dsimp only
      rw [mapLookup_insert, if_pos rfl]
    · simp [RequestAccess, h0, mapLookup_insert]

/-- Witness for C6: a one-device registry with no workflow started; the
first `RequestAccess` succeeds and spawns, the second fails without
spawning; and on a stopping framework the call fails. -/
theorem C6_request_access_witness :
    ((RequestAccess
        ({ m_OCFDevices := [("A",
            ⟨"A", ["coap://h1"], [], ["t1"], ["if.b"], ⟨"A", "", ""⟩,
              false, 1, false, 1, false, 1, 0, 0, 0, false, 0, false⟩)]
           m_OCFDevicesIndexedByDeviceURI := [("coap://h1", "A")]
           m_callbacks := []
           m_OCFRequestAccessContexts := []
           m_isStopping := false } : OCFFramework) "A").1 = IPCA_OK) ∧
    RequestAccess
        ({ emptyOCFFramework with m_isStopping := true } : OCFFramework) "A" =
      (IPCA_FAIL, { emptyOCFFramework with m_isStopping := true }, false) :=
  ⟨((C6_request_access _ "A").2.2
      ⟨"A", ["coap://h1"], [], ["t1"], ["if.b"], ⟨"A", "", ""⟩,
        false, 1, false, 1, false, 1, 0, 0, 0, false, 0, false⟩
      (by decide) (by decide) (by decide)).1,
   (C6_request_access _ "A").1 (by decide)⟩

/-- C5 evaluation at the failing input: a device is discovered at time 0
and `IPCADeviceCloseCalled` runs once with no prior
`IPCADeviceOpenCalled`; the entry's `deviceOpenCount` becomes `-1`,
violating the source's own `assert(deviceDetails->deviceOpenCount >= 0)`
and the claim's "never negative". -/
theorem C5_close_without_open_goes_negative :
    (mapLookup (runTrace emptyOCFFramework
        [Event.found 0 ⟨"A", "/a", "coap://h1", ["t1"], ["if.b"], true⟩,
         Event.closeDev 5 "A"]).m_OCFDevices "A").map
      DeviceDetails.deviceOpenCount = some (-1) := by
  decide

theorem getCommon_platformFetch_iff (d : DeviceDetails) :
    (GetCommonResources d).2.platformFetch = true ↔
      d.platformInfoAvailable = false ∧ d.platformInfoRequestCount < 3 := by
  simp only [GetCommonResources, MAX_REQUEST_COUNT]
  exact decide_eq_true_iff

theorem getCommon_deviceFetch_iff (d : DeviceDetails) :
    (GetCommonResources d).2.deviceFetch = true ↔
      d.deviceInfoAvailable = false ∧ d.deviceInfoRequestCount < 3 := by
  simp only [GetCommonResources, MAX_REQUEST_COUNT]
  split_ifs <;> exact decide_eq_true_iff

theorem getCommon_maintenanceFetch_iff (d : DeviceDetails) :
    (GetCommonResources d).2.maintenanceFetch = true ↔
      d.maintenanceResourceAvailable = false ∧
        d.maintenanceResourceRequestCount < 3 := by
  simp only [GetCommonResources, MAX_REQUEST_COUNT]
  split_ifs <;> exact decide_eq_true_iff

theorem getCommon_platformCount (d : DeviceDetails) :
    (GetCommonResources d).1.platformInfoRequestCount =
      if d.platformInfoAvailable = false ∧ d.platformInfoRequestCount < 3
      then d.platformInfoRequestCount + 1 else d.platformInfoRequestCount := by
  simp only [GetCommonResources, MAX_REQUEST_COUNT]
  split_ifs <;> rfl

theorem getCommon_deviceCount (d : DeviceDetails) :
    (GetCommonResources d).1.deviceInfoRequestCount =
      if d.deviceInfoAvailable = false ∧ d.deviceInfoRequestCount < 3
      then d.deviceInfoRequestCount + 1 else d.deviceInfoRequestCount := by
  simp only [GetCommonResources, MAX_REQUEST_COUNT]
  split_ifs <;> rfl

theorem getCommon_maintenanceCount (d : DeviceDetails) :
    (GetCommonResources d).1.maintenanceResourceRequestCount =
      if d.maintenanceResourceAvailable = false ∧
          d.maintenanceResourceRequestCount < 3
      then d.maintenanceResourceRequestCount + 1
      else d.maintenanceResourceRequestCount := by
  simp only [GetCommonResources, MAX_REQUEST_COUNT]
  split_ifs <;> rfl

/-- Iterated `GetCommonResources` on one entry — the per-entry effect of
successive maintenance ticks — together with the cumulative number of
fetches issued per metadata kind (platform, device, maintenance). -/
def iterGetCommon (d : DeviceDetails) : Nat → DeviceDetails × Nat × Nat × Nat
  | 0 => (d, 0, 0, 0)
  | n + 1 =>
      let r := GetCommonResources d
      let rest := iterGetCommon r.1 n
      (rest.1,
        (if r.2.platformFetch = true then 1 else 0) + rest.2.1,
        (if r.2.deviceFetch = true then 1 else 0) + rest.2.2.1,
        (if r.2.maintenanceFetch = true then 1 else 0) + rest.2.2.2)

theorem iter_platform_cap (n : Nat) : ∀ d : DeviceDetails,
    d.platformInfoRequestCount ≤ 3 →
    (iterGetCommon d n).2.1 + d.platformInfoRequestCount ≤ 3 := by
  induction n with
  | zero =>
      intro d h
      simpa [iterGetCommon] using h
  | succ n ih =>
      intro d h
      have hstep : (iterGetCommon d (n + 1)).2.1 =
          (if (GetCommonResources d).2.platformFetch = true then 1 else 0) +
            (iterGetCommon (GetCommonResources d).1 n).2.1 := rfl
      rw [hstep]
      by_cases hpf : (GetCommonResources d).2.platformFetch = true
      · have hcond := (getCommon_platformFetch_iff d).mp hpf
        have hcount : (GetCommonResources d).1.platformInfoRequestCount =
            d.platformInfoRequestCount + 1 := by
          rw [getCommon_platformCount, if_pos hcond]
        have hih := ih (GetCommonResources d).1 (by rw [hcount]; omega)
        rw [if_pos hpf, hcount] at *
        omega
      · have hcond : ¬ (d.platformInfoAvailable = false ∧
            d.platformInfoRequestCount < 3) :=
          fun hc => hpf ((getCommon_platformFetch_iff d).mpr hc)
        have hcount : (GetCommonResources d).1.platformInfoRequestCount =
            d.platformInfoRequestCount := by
          rw [getCommon_platformCount, if_neg hcond]
        have hih := ih (GetCommonResources d).1 (by rw [hcount]; exact h)
        rw [if_neg hpf, hcount] at *
        omega

theorem iter_device_cap (n : Nat) : ∀ d : DeviceDetails,
    d.deviceInfoRequestCount ≤ 3 →
    (iterGetCommon d n).2.2.1 + d.deviceInfoRequestCount ≤ 3 := by
  induction n with
  | zero =>
      intro d h
      simpa [iterGetCommon] using h
  | succ n ih =>
      intro d h
      have hstep : (iterGetCommon d (n + 1)).2.2.1 =
          (if (GetCommonResources d).2.deviceFetch = true then 1 else 0) +
            (iterGetCommon (GetCommonResources d).1 n).2.2.1 := rfl
      rw [hstep]
      by_cases hpf : (GetCommonResources d).2.deviceFetch = true
      · have hcond := (getCommon_deviceFetch_iff d).mp hpf
        have hcount : (GetCommonResources d).1.deviceInfoRequestCount =
            d.deviceInfoRequestCount + 1 := by
          rw [getCommon_deviceCount, if_pos hcond]
        have hih := ih (GetCommonResources d).1 (by rw [hcount]; omega)
        rw [if_pos hpf, hcount] at *
        omega
      · have hcond : ¬ (d.deviceInfoAvailable = false ∧
            d.deviceInfoRequestCount < 3) :=
          fun hc => hpf ((getCommon_deviceFetch_iff d).mpr hc)
        have hcount : (GetCommonResources d).1.deviceInfoRequestCount =
            d.deviceInfoRequestCount := by
          rw [getCommon_deviceCount, if_neg hcond]
        have hih := ih (GetCommonResources d).1 (by rw [hcount]; exact h)
        rw [if_neg hpf, hcount] at *
        omega

theorem iter_maintenance_cap (n : Nat) : ∀ d : DeviceDetails,
    d.maintenanceResourceRequestCount ≤ 3 →
    (iterGetCommon d n).2.2.2 + d.maintenanceResourceRequestCount ≤ 3 := by
  induction n with
  | zero =>
      intro d h
      simpa [iterGetCommon] using h
  | succ n ih =>
      intro d h
      have hstep : (iterGetCommon d (n + 1)).2.2.2 =
          (if (GetCommonResources d).2.maintenanceFetch = true then 1 else 0) +
            (iterGetCommon (GetCommonResources d).1 n).2.2.2 := rfl
      rw [hstep]
      by_cases hpf : (GetCommonResources d).2.maintenanceFetch = true
      · have hcond := (getCommon_maintenanceFetch_iff d).mp hpf
        have hcount : (GetCommonResources d).1.maintenanceResourceRequestCount =
            d.maintenanceResourceRequestCount + 1 := by
          rw [getCommon_maintenanceCount, if_pos hcond]
        have hih := ih (GetCommonResources d).1 (by rw [hcount]; omega)
        rw [if_pos hpf, hcount] at *
        omega
      · have hcond : ¬ (d.maintenanceResourceAvailable = false ∧
            d.maintenanceResourceRequestCount < 3) :=
          fun hc => hpf ((getCommon_maintenanceFetch_iff d).mpr hc)
        have hcount : (GetCommonResources d).1.maintenanceResourceRequestCount =
            d.maintenanceResourceRequestCount := by
          rw [getCommon_maintenanceCount, if_neg hcond]
        have hih := ih (GetCommonResources d).1 (by rw [hcount]; exact h)
        rw [if_neg hpf, hcount] at *
        omega

/-- C8.  `GetCommonResources` issues the protocol fetch for a metadata kind
exactly when that kind's availability flag is still false and its request
count is strictly below the cap of 3, and it adds one to the count exactly
when it issued (the protocol call's outcome is not consulted); consequently,
across any number of iterated calls — the per-entry effect of successive
maintenance ticks — at most 3 fetches per kind are ever issued from fresh
counters, and on a fresh never-answering entry the first three calls each
issue all three fetches while the fourth issues none. -/
theorem C8_metadata_retry_cap (d : DeviceDetails) (n : Nat) :
    ((GetCommonResources d).2.platformFetch = true ↔
      d.platformInfoAvailable = false ∧
        d.platformInfoRequestCount < MAX_REQUEST_COUNT) ∧
    ((GetCommonResources d).2.deviceFetch = true ↔
      d.deviceInfoAvailable = false ∧
        d.deviceInfoRequestCount < MAX_REQUEST_COUNT) ∧
    ((GetCommonResources d).2.maintenanceFetch = true ↔
      d.maintenanceResourceAvailable = false ∧
        d.maintenanceResourceRequestCount < MAX_REQUEST_COUNT) ∧
    ((GetCommonResources d).1.platformInfoRequestCount =
      d.platformInfoRequestCount +
        (if (GetCommonResources d).2.platformFetch = true then 1 else 0)) ∧
    ((GetCommonResources d).1.deviceInfoRequestCount =
      d.deviceInfoRequestCount +
        (if (GetCommonResources d).2.deviceFetch = true then 1 else 0)) ∧
    ((GetCommonResources d).1.maintenanceResourceRequestCount =
      d.maintenanceResourceRequestCount +
        (if (GetCommonResources d).2.maintenanceFetch = true then 1 else 0)) ∧
    (d.platformInfoRequestCount = 0 → (iterGetCommon d n).2.1 ≤ 3) ∧
    (d.deviceInfoRequestCount = 0 → (iterGetCommon d n).2.2.1 ≤ 3) ∧
    (d.maintenanceResourceRequestCount = 0 → (iterGetCommon d n).2.2.2 ≤ 3) ∧
    (iterGetCommon (freshDeviceDetails "X" 0) 3).2 = (3, 3, 3) ∧
    (GetCommonResources (iterGetCommon (freshDeviceDetails "X" 0) 3).1).2 =
      ⟨false, false, false⟩ := by
  refine ⟨getCommon_platformFetch_iff d, getCommon_deviceFetch_iff d,
    getCommon_maintenanceFetch_iff d, ?_, ?_, ?_, ?_, ?_, ?_,
    by decide, by decide⟩
  · rw [getCommon_platformCount]
    by_cases hpf : (GetCommonResources d).2.platformFetch = true
    · rw [if_pos ((getCommon_platformFetch_iff d).mp hpf), if_pos hpf]
    · rw [if_neg (fun hc => hpf ((getCommon_platformFetch_iff d).mpr hc)),
        if_neg hpf]
      omega
  · rw [getCommon_deviceCount]
    by_cases hpf : (GetCommonResources d).2.deviceFetch = true
    · rw [if_pos ((getCommon_deviceFetch_iff d).mp hpf), if_pos hpf]
    · rw [if_neg (fun hc => hpf ((getCommon_deviceFetch_iff d).mpr hc)),
        if_neg hpf]
      omega
  · rw [getCommon_maintenanceCount]
    by_cases hpf : (GetCommonResources d).2.maintenanceFetch = true
    · rw [if_pos ((getCommon_maintenanceFetch_iff d).mp hpf), if_pos hpf]
    · rw [if_neg (fun hc => hpf ((getCommon_maintenanceFetch_iff d).mpr hc)),
        if_neg hpf]
      omega
  · intro h0
    have := iter_platform_cap n d (by omega)
    omega
  · intro h0
    have := iter_device_cap n d (by omega)
    omega
  · intro h0
    have := iter_maintenance_cap n d (by omega)
    omega

/-- Witness for C8: five iterated calls on a fresh entry issue exactly three
platform fetches in total. -/
theorem C8_metadata_retry_cap_witness :
    (iterGetCommon (freshDeviceDetails "Y" 7) 5).2.1 ≤ 3 :=
  (C8_metadata_retry_cap (freshDeviceDetails "Y" 7) 5).2.2.2.2.2.2.1 (by decide)

instance decNodupKeys {α : Type} (m : List (String × α)) :
    Decidable (NodupKeys m) :=
  inferInstanceAs (Decidable ((m.map Prod.fst).Nodup))

instance decKeysMatch (st : OCFFramework) : Decidable (KeysMatch st) :=
  inferInstanceAs (Decidable (∀ p ∈ st.m_OCFDevices, p.2.deviceId = p.1))

theorem applyGetCommonById_lookup_none (s : OCFFramework) (i id : String) :
    mapLookup (applyGetCommonById s i).m_OCFDevices id = none ↔
      mapLookup s.m_OCFDevices id = none := by
  unfold applyGetCommonById
  split
  · exact Iff.rfl
  · rename_i d hl
    dsimp only
    rw [mapLookup_insert]
    by_cases h : id = i
    · subst h
      rw [if_pos rfl, hl]
      simp
    · rw [if_neg h]

theorem applyFold_lookup_none (ids : List String) (s : OCFFramework) (id : String) :
    mapLookup (ids.foldl applyGetCommonById s).m_OCFDevices id = none ↔
      mapLookup s.m_OCFDevices id = none := by
  induction ids generalizing s with
  | nil => exact Iff.rfl
  | cons i ids ih =>
      simp only [List.foldl_cons]
      rw [ih, applyGetCommonById_lookup_none]

theorem workerTick_lookup_none (st : OCFFramework) (now : Nat) (id : String) :
    mapLookup (WorkerTick st now).m_OCFDevices id = none ↔
      (id ∈ ((tickIdleList st now).map Prod.snd).map DeviceDetails.deviceId ∨
        mapLookup st.m_OCFDevices id = none) := by
  rw [workerTick_decomp, applyFold_lookup_none]
  rw [show (tickEvictState st now).m_OCFDevices =
      (((tickIdleList st now).map Prod.snd).map DeviceDetails.deviceId).foldl
        mapErase (tickScanState st now).m_OCFDevices from
    foldl_evictOne_devices _ _]
  rw [mapLookup_foldl_erase]
  by_cases h : id ∈ ((tickIdleList st now).map Prod.snd).map DeviceDetails.deviceId
  · rw [if_pos h]
    exact iff_of_true rfl (Or.inl h)
  · rw [if_neg h]
    have hscan : (tickScanState st now).m_OCFDevices =
        st.m_OCFDevices.map (fun p => (p.1, tickUpdateEntry now p.2)) := rfl
    rw [hscan, mapLookup_mapEntries]
    constructor
    · intro hmap
      right
      cases hx : mapLookup st.m_OCFDevices id with
      | none => rfl
      | some d =>
          rw [hx] at hmap
          simp at hmap
    · intro hor
      rcases hor with h' | h'
      · exact absurd h' h
      · rw [h']
        rfl

/-- C7 (amended).  The maintenance tick evicts an entry only when its
`deviceOpenCount` is zero and strictly more than 300000 ms have elapsed
since `lastCloseDeviceTime` — which is initialized at discovery-creation
and refreshed only by a close that brings the count to zero, so a closed
device is evicted no earlier than 300 s after that close, while a device
never opened nor closed is nevertheless evicted 300 s after its discovery
(see the counterexample); an entry not meeting the idle condition survives
the tick; and an entry classified idle on a tick is on neither the
not-responding list nor the incomplete-metadata list of that tick. -/
theorem C7_eviction_policy (st : OCFFramework) (now : Nat) (id : String)
    (d : DeviceDetails) (hnd : NodupKeys st.m_OCFDevices) (hkm : KeysMatch st)
    (hl : mapLookup st.m_OCFDevices id = some d) :
    (mapLookup (WorkerTick st now).m_OCFDevices id = none →
      d.deviceOpenCount = 0 ∧ 300000 < now - d.lastCloseDeviceTime) ∧
    (¬ (d.deviceOpenCount = 0 ∧ 300000 < now - d.lastCloseDeviceTime) →
      mapLookup (WorkerTick st now).m_OCFDevices id ≠ none) ∧
    (∀ p ∈ tickIdleList st now,
      p.1 ∉ (tickNotRespondingList st now).map Prod.fst ∧
      p.1 ∉ (tickGetCommonList st now).map Prod.fst) := by
  have hidle_of_mem :
      id ∈ ((tickIdleList st now).map Prod.snd).map DeviceDetails.deviceId →
        idleDevice now d = true := by
    intro hin
    rcases List.mem_map.mp hin with ⟨dd, hdd, hde⟩
    obtain ⟨p₀, hp₀, hp₀e, hidle, hdid⟩ := tickIdle_facts st now hkm dd hdd
    have hkey : p₀.1 = id := by rw [← hdid, hde]
    have hl₀ : mapLookup st.m_OCFDevices p₀.1 = some p₀.2 :=
      mem_lookup_of_nodup hnd hp₀
    rw [hkey, hl] at hl₀
    have hdd2 : d = p₀.2 := by injection hl₀
    rw [hdd2, hp₀e]
    exact hidle
  refine ⟨?_, ?_, ?_⟩
  · intro hnone
    rcases (workerTick_lookup_none st now id).mp hnone with h | h
    · have hidle := hidle_of_mem h
      unfold idleDevice at hidle
      rw [Bool.and_eq_true] at hidle
      exact ⟨of_decide_eq_true hidle.1, of_decide_eq_true hidle.2⟩
    · rw [hl] at h
      exact absurd h (by simp)
  · intro hnidle hnone
    rcases (workerTick_lookup_none st now id).mp hnone with h | h
    · have hidle := hidle_of_mem h
      unfold idleDevice at hidle
      rw [Bool.and_eq_true] at hidle
      exact hnidle ⟨of_decide_eq_true hidle.1, of_decide_eq_true hidle.2⟩
    · rw [hl] at h
      exact absurd h (by simp)
  · intro p hp
    have hpf := List.mem_filter.mp
      (show p ∈ st.m_OCFDevices.filter (fun q => idleDevice now q.2) from hp)
    constructor
    · intro hin
      rcases List.mem_map.mp hin with ⟨p', hp', he⟩
      have hpf' := List.mem_filter.mp
        (show p' ∈ st.m_OCFDevices.filter
          (fun q => !idleDevice now q.2 && notRespondingTrigger now q.2) from hp')
      have heq : p' = p := nodup_mem_eq hnd hpf'.1 hpf.1 he
      have h1 := hpf.2
      have h2 := hpf'.2
      rw [heq] at h2
      simp [h1] at h2
    · intro hin
      rcases List.mem_map.mp hin with ⟨p', hp', he⟩
      have hpf' := List.mem_filter.mp
        (show p' ∈ st.m_OCFDevices.filter
          (fun q => !idleDevice now q.2 && missingMetadata q.2) from hp')
      have heq : p' = p := nodup_mem_eq hnd hpf'.1 hpf.1 he
      have h1 := hpf.2
      have h2 := hpf'.2
      rw [heq] at h2
      simp [h1] at h2

/-- Witness for C7: a one-device registry whose entry is held open
(`deviceOpenCount = 1`); a tick far beyond every timeout does not evict
it. -/
theorem C7_eviction_policy_witness :
    mapLookup (WorkerTick
      ({ m_OCFDevices := [("A",
          ⟨"A", ["coap://h1"], [], ["t1"], ["if.b"], ⟨"A", "", ""⟩,
            false, 1, false, 1, false, 1, 1, 0, 0, false, 0, false⟩)]
         m_OCFDevicesIndexedByDeviceURI := [("coap://h1", "A")]
         m_callbacks := []
         m_OCFRequestAccessContexts := []
         m_isStopping := false } : OCFFramework) 999999).m_OCFDevices "A" ≠
      none :=
  (C7_eviction_policy _ 999999 "A"
    ⟨"A", ["coap://h1"], [], ["t1"], ["if.b"], ⟨"A", "", ""⟩,
      false, 1, false, 1, false, 1, 1, 0, 0, false, 0, false⟩
    (by decide) (by decide) (by decide)).2.1 (by decide)

/-- Counterexample to C7 as stated: a device discovered at time 0 and never
opened nor closed (the trace contains no `IPCADeviceCloseCalled` event) is
evicted by the tick at 300001 ms, because `OnResourceFound` initialized
`lastCloseDeviceTime` at creation. -/
theorem C7_never_closed_evicted :
    mapLookup (runTrace emptyOCFFramework
      [Event.found 0 ⟨"A", "/a", "coap://h1", ["t1"], ["if.b"], true⟩,
       Event.tick 300001]).m_OCFDevices "A" = none := by
  decide
